import Mathlib

/-!
Verification of the tw-homedog deduplication core.

This file shallowly embeds the dedup engine of the repository
(`tw_homedog/dedup.py`, `tw_homedog/dedup_cleanup.py`, `tw_homedog/storage.py`)
into Lean 4 and proves properties of the embedding.

Modelling conventions:
* Python strings are modelled as `List Char` (or `String` at record level);
  Python character classes are restricted to the character sets the repository
  actually feeds them (ASCII plus the CJK block U+4E00..U+9FFF).
* Python floats are modelled as exact rationals `ℚ`; `round(x, 4)` is modelled
  as round-half-to-even on the exact value.
* External library functions that no claim depends on internally
  (`hashlib.sha1`, `datetime.fromisoformat`) are taken as parameters of the
  embedded functions; `difflib.SequenceMatcher.ratio` is embedded in full
  because claims depend on its concrete values.
* SQLite tables are modelled as lists of typed rows; wall-clock defaults
  (`datetime('now')`) are passed in as an explicit `now` parameter.
-/

/-- ASCII whitespace, modelling the whitespace class used by `str.strip`
and the regex class `\s` on the repository's inputs. -/
def isSpaceChar (c : Char) : Bool :=
  c = ' ' || c = '\t' || c = '\n' || c = '\r' || c = Char.ofNat 11 || c = Char.ofNat 12

/-- CJK unified ideographs U+4E00..U+9FFF, the class `[一-鿿]`. -/
def isCJKChar (c : Char) : Bool :=
  0x4e00 ≤ c.toNat && c.toNat ≤ 0x9fff

/-- The regex class `\w` restricted to the repository's inputs
(ASCII alphanumerics, underscore) together with the CJK block kept by
`[^\w一-鿿]`. -/
def isWordChar (c : Char) : Bool :=
  c.isAlpha || c.isDigit || c = '_' || isCJKChar c

/-- `str.strip()`: drop whitespace from both ends. -/
def pyStrip (l : List Char) : List Char :=
  ((l.dropWhile isSpaceChar).reverse.dropWhile isSpaceChar).reverse

/-- The `"台" -> "臺"` character collapse in `_normalize_text`. -/
def replTai (c : Char) : Char :=
  if c = '台' then '臺' else c

/-- `_normalize_text` from `dedup.py`: strip, lowercase, collapse 台 to 臺,
remove whitespace (`re.sub(r"\s+", "")`), keep only word/CJK characters
(`re.sub(r"[^\w一-鿿]", "")`). -/
def normalizeText (l : List Char) : List Char :=
  let t := ((pyStrip l).map Char.toLower).map replTai
  let t := t.filter (fun c => !isSpaceChar c)
  t.filter isWordChar

/-- `_normalize_text` for an optional field value (`if not value: return ""`). -/
def normalizeTextOpt (v : Option String) : List Char :=
  match v with
  | none => []
  | some s => normalizeText s.data

theorem dropWhileLengthLe {α : Type} (p : α → Bool) :
    ∀ l : List α, (l.dropWhile p).length ≤ l.length := by
  intro l
  induction l with
  | nil => simp
  | cons c rest ih =>
    by_cases hc : p c
    · rw [List.dropWhile_cons_of_pos hc]
      exact Nat.le_trans ih (Nat.le_succ _)
    · rw [List.dropWhile_cons_of_neg hc]

/-- Fuel-bounded scanner for the floor-suffix removal `re.sub(r"\d+樓", "", text)`
of `normalize_address`: scan left to right; at a digit, take the maximal digit
run; if it is immediately followed by 樓, drop the run and the 樓 and resume
after it, otherwise emit the run and resume at the next character. The fuel is
an upper bound on the input length, so it never runs out. -/
def sftAux : Nat → List Char → List Char
  | _, [] => []
  | 0, l => l
  | fuel + 1, c :: rest =>
    if c.isDigit then
      let ds := rest.takeWhile Char.isDigit
      let after := rest.dropWhile Char.isDigit
      match after with
      | [] => c :: ds
      | x :: rest2 =>
        if x = '樓' then sftAux fuel rest2
        else (c :: ds) ++ x :: sftAux fuel rest2
    else c :: sftAux fuel rest

/-- The floor-suffix removal `re.sub(r"\d+樓", "", text)` in
`normalize_address`. -/
def stripFloorTokens (l : List Char) : List Char :=
  sftAux l.length l

theorem sftAuxNil (fuel : Nat) : sftAux fuel [] = [] := by
  cases fuel <;> rfl

theorem sftAuxFuelInv : ∀ f1 : Nat, ∀ f2 : Nat, ∀ l : List Char,
    l.length ≤ f1 → l.length ≤ f2 → sftAux f1 l = sftAux f2 l := by
  intro f1
  induction f1 using Nat.strong_induction_on with
  | _ f1 ih =>
  intro f2 l h1 h2
  match f1, f2, l with
  | _, _, [] => rw [sftAuxNil, sftAuxNil]
  | 0, _, c :: rest => simp at h1
  | _ + 1, 0, c :: rest => simp at h2
  | g1 + 1, g2 + 1, c :: rest =>
    have hg1 : rest.length ≤ g1 := by
      simp at h1
      omega
    have hg2 : rest.length ≤ g2 := by
      simp at h2
      omega
    simp only [sftAux]
    by_cases hc : c.isDigit
    · rw [if_pos hc, if_pos hc]
      cases hafter : rest.dropWhile Char.isDigit with
      | nil => simp [hafter]
      | cons x rest2 =>
        have hlen2 : rest2.length ≤ rest.length := by
          have hd := dropWhileLengthLe Char.isDigit rest
          rw [hafter] at hd
          simp at hd
          omega
        simp only [hafter]
        by_cases hx : x = '樓'
        · rw [if_pos hx, if_pos hx]
          exact ih g1 (Nat.lt_succ_self g1) g2 rest2 (hlen2.trans hg1) (hlen2.trans hg2)
        · rw [if_neg hx, if_neg hx]
          rw [ih g1 (Nat.lt_succ_self g1) g2 rest2 (hlen2.trans hg1) (hlen2.trans hg2)]
    · rw [if_neg hc, if_neg hc]
      rw [ih g1 (Nat.lt_succ_self g1) g2 rest hg1 hg2]

/-- `normalize_address` from `dedup.py`. -/
def normalizeAddress (l : List Char) : List Char :=
  stripFloorTokens (normalizeText l)

/-- `normalize_address` for an optional field value. -/
def normalizeAddressOpt (v : Option String) : List Char :=
  match v with
  | none => []
  | some s => normalizeAddress s.data

theorem charToNatOfNat (m : Nat) (h : m.isValidChar) : (Char.ofNat m).toNat = m := by
  rw [Char.ofNat, dif_pos h]
  rfl

theorem toLowerIdem (c : Char) : c.toLower.toLower = c.toLower := by
  unfold Char.toLower
  by_cases h : c.toNat ≥ 65 ∧ c.toNat ≤ 90
  · rw [if_pos h]
    have hv : (c.toNat + 32).isValidChar := by
      left
      omega
    rw [charToNatOfNat _ hv, if_neg]
    omega
  · rw [if_neg h, if_neg h]

/-- Characters that every normalised text consists of: they survive each stage
of `_normalize_text` unchanged. -/
def GoodChar (c : Char) : Prop :=
  isWordChar c = true ∧ isSpaceChar c = false ∧ c.toLower = c ∧ replTai c = c

theorem wordNotSpace (c : Char) (h : isWordChar c = true) : isSpaceChar c = false := by
  by_contra hs
  rw [Bool.not_eq_false] at hs
  simp only [isSpaceChar, Bool.or_eq_true, decide_eq_true_eq] at hs
  rcases hs with ((((hc | hc) | hc) | hc) | hc) | hc <;> subst hc <;> revert h <;> decide

theorem normalizeTextChars (l : List Char) (c : Char) (hc : c ∈ normalizeText l) :
    GoodChar c := by
  simp only [normalizeText, List.mem_filter, List.mem_map, Bool.not_eq_true'] at hc
  obtain ⟨⟨⟨d, hd, hrepl⟩, hns⟩, hw⟩ := hc
  obtain ⟨a, _, hlow⟩ := hd
  refine ⟨hw, hns, ?_, ?_⟩
  · by_cases htai : d = '台'
    · rw [← hrepl]
      simp only [replTai, if_pos htai]
      decide
    · rw [← hrepl]
      simp only [replTai, if_neg htai]
      rw [← hlow, toLowerIdem]
  · by_cases htai : d = '台'
    · rw [← hrepl]
      simp only [replTai, if_pos htai]
      decide
    · rw [← hrepl]
      simp [replTai, htai]

theorem dropWhileAllNeg {α : Type} (p : α → Bool) (l : List α)
    (h : ∀ c ∈ l, p c = false) : l.dropWhile p = l := by
  cases l with
  | nil => rfl
  | cons c rest => exact List.dropWhile_cons_of_neg (by simp [h c (by simp)])

theorem mapAllFixed {α : Type} (f : α → α) (l : List α)
    (h : ∀ c ∈ l, f c = c) : l.map f = l := by
  induction l with
  | nil => rfl
  | cons c rest ih =>
    simp only [List.map_cons, h c (by simp)]
    rw [ih (fun x hx => h x (by simp [hx]))]

theorem normalizeTextFixed (l : List Char) (h : ∀ c ∈ l, GoodChar c) :
    normalizeText l = l := by
  have hstrip : pyStrip l = l := by
    unfold pyStrip
    rw [dropWhileAllNeg _ l (fun c hc => (h c hc).2.1)]
    rw [dropWhileAllNeg _ l.reverse (fun c hc => (h c (List.mem_reverse.mp hc)).2.1)]
    exact List.reverse_reverse l
  unfold normalizeText
  rw [hstrip]
  rw [mapAllFixed _ l (fun c hc => (h c hc).2.2.1)]
  rw [mapAllFixed _ l (fun c hc => (h c hc).2.2.2)]
  have hf1 : (l.filter (fun c => !isSpaceChar c)) = l :=
    List.filter_eq_self.mpr (fun c hc => by simp [(h c hc).2.1])
  dsimp only
  rw [hf1]
  exact List.filter_eq_self.mpr (fun c hc => (h c hc).1)

theorem normalizeTextIdem (l : List Char) :
    normalizeText (normalizeText l) = normalizeText l :=
  normalizeTextFixed _ (normalizeTextChars l)

theorem sftNil : stripFloorTokens [] = [] := rfl

theorem sftNondigit (c : Char) (rest : List Char) (hc : ¬ c.isDigit = true) :
    stripFloorTokens (c :: rest) = c :: stripFloorTokens rest := by
  show sftAux (rest.length + 1) (c :: rest) = c :: stripFloorTokens rest
  simp only [sftAux, if_neg hc]
  rfl

theorem sftDigitNil (c : Char) (rest : List Char) (hc : c.isDigit = true)
    (hafter : rest.dropWhile Char.isDigit = []) :
    stripFloorTokens (c :: rest) = c :: rest.takeWhile Char.isDigit := by
  show sftAux (rest.length + 1) (c :: rest) = c :: rest.takeWhile Char.isDigit
  simp only [sftAux, if_pos hc, hafter]

theorem sftLenBound (rest : List Char) (x : Char) (rest2 : List Char)
    (hafter : rest.dropWhile Char.isDigit = x :: rest2) :
    rest2.length ≤ rest.length := by
  have hd := dropWhileLengthLe Char.isDigit rest
  rw [hafter] at hd
  simp at hd
  omega

theorem sftDigitLou (c : Char) (rest rest2 : List Char) (hc : c.isDigit = true)
    (hafter : rest.dropWhile Char.isDigit = '樓' :: rest2) :
    stripFloorTokens (c :: rest) = stripFloorTokens rest2 := by
  show sftAux (rest.length + 1) (c :: rest) = stripFloorTokens rest2
  simp only [sftAux, if_pos hc, hafter, if_pos]
  exact sftAuxFuelInv rest.length rest2.length rest2
    (sftLenBound rest '樓' rest2 hafter) (le_refl _)

theorem sftDigitOther (c x : Char) (rest rest2 : List Char) (hc : c.isDigit = true)
    (hafter : rest.dropWhile Char.isDigit = x :: rest2) (hx : ¬ x = '樓') :
    stripFloorTokens (c :: rest) =
      (c :: rest.takeWhile Char.isDigit) ++ x :: stripFloorTokens rest2 := by
  show sftAux (rest.length + 1) (c :: rest) = _
  simp only [sftAux, if_pos hc, hafter, if_neg hx]
  rw [sftAuxFuelInv rest.length rest2.length rest2
    (sftLenBound rest x rest2 hafter) (le_refl _)]
  rfl

theorem takeWhileMem {α : Type} (p : α → Bool) :
    ∀ (l : List α) (c : α), c ∈ l.takeWhile p → p c = true := by
  intro l
  induction l with
  | nil =>
    intro c hc
    simp at hc
  | cons a rest ih =>
    intro c hc
    by_cases ha : p a = true
    · rw [List.takeWhile_cons_of_pos ha] at hc
      rcases List.mem_cons.mp hc with h | h
      · subst h
        exact ha
      · exact ih c h
    · rw [List.takeWhile_cons_of_neg (by simpa using ha)] at hc
      simp at hc

theorem takeWhileAll {α : Type} (p : α → Bool) (ds : List α)
    (hds : ∀ d ∈ ds, p d = true) :
    ds.takeWhile p = ds ∧ ds.dropWhile p = [] := by
  induction ds with
  | nil => simp
  | cons d rest ih =>
    have hd := hds d (by simp)
    obtain ⟨h1, h2⟩ := ih (fun e he => hds e (by simp [he]))
    exact ⟨by rw [List.takeWhile_cons_of_pos hd, h1],
           by rw [List.dropWhile_cons_of_pos hd, h2]⟩

theorem takeWhileAppend {α : Type} (p : α → Bool) (ds : List α) (x : α) (S : List α)
    (hds : ∀ d ∈ ds, p d = true) (hx : p x = false) :
    (ds ++ x :: S).takeWhile p = ds ∧ (ds ++ x :: S).dropWhile p = x :: S := by
  induction ds with
  | nil =>
    simp only [List.nil_append]
    exact ⟨List.takeWhile_cons_of_neg (by simp [hx]),
           List.dropWhile_cons_of_neg (by simp [hx])⟩
  | cons d rest ih =>
    have hd : p d = true := hds d (by simp)
    obtain ⟨h1, h2⟩ := ih (fun e he => hds e (by simp [he]))
    constructor
    · rw [List.cons_append, List.takeWhile_cons_of_pos hd, h1]
    · rw [List.cons_append, List.dropWhile_cons_of_pos hd, h2]

theorem dropWhileHeadNeg {α : Type} (p : α → Bool) :
    ∀ (l : List α) (x : α) (r : List α), l.dropWhile p = x :: r → p x = false := by
  intro l
  induction l with
  | nil =>
    intro x r h
    simp at h
  | cons a rest ih =>
    intro x r h
    by_cases ha : p a = true
    · rw [List.dropWhile_cons_of_pos ha] at h
      exact ih x r h
    · rw [List.dropWhile_cons_of_neg (by simpa using ha)] at h
      obtain ⟨h1, h2⟩ := List.cons.inj h
      subst h1
      simpa using ha

theorem sftSubsetAux : ∀ n : Nat, ∀ l : List Char, l.length ≤ n →
    ∀ c ∈ stripFloorTokens l, c ∈ l := by
  intro n
  induction n with
  | zero =>
    intro l hl c hc
    have hnil : l = [] := List.eq_nil_of_length_eq_zero (Nat.le_zero.mp hl)
    subst hnil
    rw [sftNil] at hc
    simp at hc
  | succ n ih =>
    intro l hl c hc
    match l with
    | [] =>
      rw [sftNil] at hc
      simp at hc
    | a :: rest =>
      have hrest : rest.length ≤ n := by
        simp at hl
        omega
      by_cases hd : a.isDigit
      · cases hafter : rest.dropWhile Char.isDigit with
        | nil =>
          rw [sftDigitNil a rest hd hafter] at hc
          rcases List.mem_cons.mp hc with h | h
          · simp [h]
          · exact List.mem_cons_of_mem _ ((List.takeWhile_sublist _).subset h)
        | cons x rest2 =>
          have hlen2 : rest2.length ≤ n := (sftLenBound rest x rest2 hafter).trans hrest
          by_cases hx : x = '樓'
          · subst hx
            rw [sftDigitLou a rest rest2 hd hafter] at hc
            have hmem : c ∈ rest.dropWhile Char.isDigit := by
              rw [hafter]
              exact List.mem_cons_of_mem _ (ih rest2 hlen2 c hc)
            exact List.mem_cons_of_mem _ ((List.dropWhile_sublist _).subset hmem)
          · rw [sftDigitOther a x rest rest2 hd hafter hx] at hc
            rcases List.mem_append.mp hc with h | h
            · rcases List.mem_cons.mp h with h1 | h1
              · simp [h1]
              · exact List.mem_cons_of_mem _ ((List.takeWhile_sublist _).subset h1)
            · rcases List.mem_cons.mp h with h1 | h1
              · subst h1
                have hmem : c ∈ rest.dropWhile Char.isDigit := by
                  rw [hafter]
                  simp
                exact List.mem_cons_of_mem _ ((List.dropWhile_sublist _).subset hmem)
              · have hmem : c ∈ rest.dropWhile Char.isDigit := by
                  rw [hafter]
                  exact List.mem_cons_of_mem _ (ih rest2 hlen2 c h1)
                exact List.mem_cons_of_mem _ ((List.dropWhile_sublist _).subset hmem)
      · rw [sftNondigit a rest hd] at hc
        rcases List.mem_cons.mp hc with h | h
        · simp [h]
        · exact List.mem_cons_of_mem _ (ih rest hrest c h)

theorem sftSubset : ∀ l : List Char, ∀ c ∈ stripFloorTokens l, c ∈ l :=
  fun l => sftSubsetAux l.length l (le_refl _)

theorem sftIdemAux : ∀ n : Nat, ∀ l : List Char, l.length ≤ n →
    stripFloorTokens (stripFloorTokens l) = stripFloorTokens l := by
  intro n
  induction n with
  | zero =>
    intro l hl
    have hnil : l = [] := List.eq_nil_of_length_eq_zero (Nat.le_zero.mp hl)
    subst hnil
    rw [sftNil, sftNil]
  | succ n ih =>
    intro l hl
    match l with
    | [] => rw [sftNil, sftNil]
    | a :: rest =>
      have hrest : rest.length ≤ n := by
        simp at hl
        omega
      by_cases hd : a.isDigit
      · cases hafter : rest.dropWhile Char.isDigit with
        | nil =>
          rw [sftDigitNil a rest hd hafter]
          have hall : ∀ d ∈ rest.takeWhile Char.isDigit, d.isDigit = true :=
            fun d hd2 => takeWhileMem _ _ d hd2
          obtain ⟨h1, h2⟩ := takeWhileAll Char.isDigit _ hall
          rw [sftDigitNil a _ hd h2, h1]
        | cons x rest2 =>
          have hlen2 : rest2.length ≤ n := (sftLenBound rest x rest2 hafter).trans hrest
          by_cases hx : x = '樓'
          · subst hx
            rw [sftDigitLou a rest rest2 hd hafter]
            exact ih rest2 hlen2
          · rw [sftDigitOther a x rest rest2 hd hafter hx]
            have hall : ∀ d ∈ rest.takeWhile Char.isDigit, d.isDigit = true :=
              fun d hd2 => takeWhileMem _ _ d hd2
            have hxd : x.isDigit = false := dropWhileHeadNeg _ rest x rest2 hafter
            obtain ⟨h1, h2⟩ := takeWhileAppend Char.isDigit (rest.takeWhile Char.isDigit) x
              (stripFloorTokens rest2) hall hxd
            rw [List.cons_append]
            rw [sftDigitOther a x _ (stripFloorTokens rest2) hd h2 hx]
            rw [h1, ih rest2 hlen2]
            simp
      · rw [sftNondigit a rest hd, sftNondigit a _ hd, ih rest hrest]

theorem sftIdem : ∀ l : List Char,
    stripFloorTokens (stripFloorTokens l) = stripFloorTokens l :=
  fun l => sftIdemAux l.length l (le_refl _)

theorem normalizeAddressIdem (l : List Char) :
    normalizeAddress (normalizeAddress l) = normalizeAddress l := by
  unfold normalizeAddress
  rw [normalizeTextFixed (stripFloorTokens (normalizeText l))
        (fun c hc => normalizeTextChars l c (sftSubset _ c hc))]
  exact sftIdem _

/-- C8: for every input string x, the general text normalizer `_normalize_text`
and the address normalizer `normalize_address` are idempotent:
normalize(normalize(x)) = normalize(x). -/
theorem claim_C8_normalization_idempotent (x : List Char) :
    normalizeAddress (normalizeAddress x) = normalizeAddress x ∧
    normalizeText (normalizeText x) = normalizeText x :=
  ⟨normalizeAddressIdem x, normalizeTextIdem x⟩

/-- Python `round(x, 4)`: round half to even at four decimal places,
on the exact rational value. -/
def roundHalfEven (x : ℚ) : ℤ :=
  let f := ⌊x⌋
  let r := x - f
  if r < 1/2 then f
  else if r > 1/2 then f + 1
  else if f % 2 = 0 then f else f + 1

/-- `round(x, 4)` as used throughout `score_duplicate`. -/
def round4 (x : ℚ) : ℚ :=
  (roundHalfEven (x * 10000) : ℚ) / 10000

/-- `_bigram_set` from `dedup.py`. -/
def bigramSet (text : List Char) : Finset (List Char) :=
  if text.length ≤ 1 then
    if text = [] then ∅ else {text}
  else
    ((List.range (text.length - 1)).map (fun i => (text.drop i).take 2)).toFinset

/-- ASCII alphanumeric, the regex class `[0-9a-zA-Z]`. -/
def isAlnumChar (c : Char) : Bool :=
  c.isDigit || c.isAlpha

/-- Fuel-bounded token scanner behind `_token_set`:
`re.findall(r"[0-9a-zA-Z]+|[一-鿿]", text)` — maximal ASCII-alphanumeric runs,
or single CJK characters, scanned left to right. The fuel is an upper bound on
the input length, so it never runs out. -/
def tokenScanAux : Nat → List Char → List (List Char)
  | _, [] => []
  | 0, _ => []
  | fuel + 1, c :: rest =>
    if isAlnumChar c then
      (c :: rest.takeWhile isAlnumChar) :: tokenScanAux fuel (rest.dropWhile isAlnumChar)
    else if isCJKChar c then
      [c] :: tokenScanAux fuel rest
    else
      tokenScanAux fuel rest

/-- The token list of `_token_set`. -/
def tokenScan (l : List Char) : List (List Char) :=
  tokenScanAux l.length l

/-- `_token_set` from `dedup.py`. -/
def tokenSet (text : List Char) : Finset (List Char) :=
  (tokenScan text).toFinset

/-- `_jaccard` from `dedup.py`. -/
def jaccard (a b : Finset (List Char)) : ℚ :=
  if a = ∅ ∨ b = ∅ then 0
  else ((a ∩ b).card : ℚ) / ((a ∪ b).card : ℚ)

/-!
Embedding of `difflib.SequenceMatcher(None, a, b).ratio()` (Python stdlib),
which `_address_similarity` calls. With `isjunk = None` the junk set is
always empty; `autojunk` only removes popular characters from the index
`b2j` when `len(b) >= 200`.
-/

/-- `b2j` of `SequenceMatcher`: ascending indices of a character in `b`,
with autojunk's popular-entry removal for long `b`. -/
def seqB2j (b : List Char) (c : Char) : List Nat :=
  let idxs := (List.range b.length).filter (fun j => b.getD j ' ' = c)
  if 200 ≤ b.length ∧ b.length / 100 + 1 < idxs.length then [] else idxs

/-- State of `find_longest_match`: best starting indices and size. -/
structure FLM where
  besti : Nat
  bestj : Nat
  bestsize : Nat
deriving DecidableEq

/-- The dynamic-programming core of `find_longest_match`: one outer iteration
per index `i` of `a`, threading the sparse map `j2len` (total function,
default 0) and the current best block. -/
def flmStep (b2j : Char → List Nat) (blo bhi : Nat) (i : Nat) (c : Char)
    (acc : (Nat → Nat) × FLM) : (Nat → Nat) × FLM :=
  let j2len := acc.1
  let js := (b2j c).filter (fun j => blo ≤ j && j < bhi)
  js.foldl
    (fun (p : (Nat → Nat) × FLM) j =>
      let k := (if j = 0 then 0 else j2len (j - 1)) + 1
      let st := if p.2.bestsize < k then FLM.mk (i + 1 - k) (j + 1 - k) k else p.2
      (fun j2 => if j2 = j then k else p.1 j2, st))
    ((fun _ => 0), acc.2)

/-- The non-junk extension loop of `find_longest_match` that grows the best
block downwards (fuel-bounded; `besti` strictly decreases). -/
def flmExtendLow (a b : List Char) (alo blo : Nat) : Nat → FLM → FLM
  | 0, st => st
  | fuel + 1, st =>
    if alo < st.besti ∧ blo < st.bestj ∧
       a.getD (st.besti - 1) ' ' = b.getD (st.bestj - 1) ' ' then
      flmExtendLow a b alo blo fuel (FLM.mk (st.besti - 1) (st.bestj - 1) (st.bestsize + 1))
    else st

/-- The non-junk extension loop that grows the best block upwards. -/
def flmExtendHigh (a b : List Char) (ahi bhi : Nat) : Nat → FLM → FLM
  | 0, st => st
  | fuel + 1, st =>
    if st.besti + st.bestsize < ahi ∧ st.bestj + st.bestsize < bhi ∧
       a.getD (st.besti + st.bestsize) ' ' = b.getD (st.bestj + st.bestsize) ' ' then
      flmExtendHigh a b ahi bhi fuel (FLM.mk st.besti st.bestj (st.bestsize + 1))
    else st

/-- `find_longest_match(alo, ahi, blo, bhi)` with empty junk set. -/
def findLongestMatch (a b : List Char) (b2j : Char → List Nat)
    (alo ahi blo bhi : Nat) : FLM :=
  let core := ((List.range (ahi - alo)).map (fun d => d + alo)).foldl
    (fun acc i => flmStep b2j blo bhi i (a.getD i ' ') acc)
    ((fun _ => 0), FLM.mk alo blo 0)
  let st := flmExtendLow a b alo blo core.2.besti core.2
  flmExtendHigh a b ahi bhi ahi st

/-- The queue loop of `get_matching_blocks`, accumulating the total matched
size (all `ratio` needs). `queue.pop()` pops the most recently pushed
interval, so the queue is modelled as a stack with the head on top. -/
def matchingTotal (a b : List Char) (b2j : Char → List Nat) :
    Nat → List (Nat × Nat × Nat × Nat) → Nat → Nat
  | 0, _, acc => acc
  | _ + 1, [], acc => acc
  | fuel + 1, (alo, ahi, blo, bhi) :: queue, acc =>
    let st := findLongestMatch a b b2j alo ahi blo bhi
    if st.bestsize = 0 then matchingTotal a b b2j fuel queue acc
    else
      let qLow := if alo < st.besti ∧ blo < st.bestj
        then [(alo, st.besti, blo, st.bestj)] else []
      let qHigh := if st.besti + st.bestsize < ahi ∧ st.bestj + st.bestsize < bhi
        then [(st.besti + st.bestsize, ahi, st.bestj + st.bestsize, bhi)] else []
      matchingTotal a b b2j fuel (qHigh ++ qLow ++ queue) (acc + st.bestsize)

/-- `SequenceMatcher(None, a, b).ratio()`: `2*M / (len(a)+len(b))`, with
`1.0` for two empty sequences (`_calculate_ratio`). -/
def seqRatio (a b : List Char) : ℚ :=
  let total := a.length + b.length
  if total = 0 then 1
  else
    let m := matchingTotal a b (seqB2j b) (2 * a.length + 2)
      [(0, a.length, 0, b.length)] 0
    2 * (m : ℚ) / (total : ℚ)

def DEFAULT_DEDUP_THRESHOLD : ℚ := 0.82

def DEFAULT_PRICE_TOLERANCE : ℚ := 0.05

def DEFAULT_SIZE_TOLERANCE : ℚ := 0.08

/-- A listing record: the fields of the `listings` row / scraped dict that the
dedup core reads. Numeric columns are modelled as already-parsed rationals
(NULL or a number, matching the INTEGER/REAL columns); text columns are
optional strings. -/
structure Listing where
  source : String
  listing_id : String
  title : Option String
  price : Option ℚ
  address : Option String
  district : Option String
  size_ping : Option ℚ
  floor : Option String
  url : Option String
  published_at : Option String
  raw_hash : Option String
  houseage : Option String
  unit_price : Option String
  kind_name : Option String
  room : Option String
  community_name : Option String
  main_area : Option ℚ
  direction : Option String
  entity_fingerprint : Option String
  created_at : Option String
deriving DecidableEq, Inhabited

/-- `_parse_float` on a NULL-or-numeric column value. -/
def parseFloat (v : Option ℚ) : Option ℚ := v

def digitsToNat (ds : List Char) : Nat :=
  ds.foldl (fun n c => n * 10 + (c.toNat - 48)) 0

/-- `re.search(r"(\d+)\s*M", text)` for a marker class `M`: the leftmost
maximal digit run that is followed by optional whitespace and a marker
character (markers are never digits or whitespace, so greedy matching with no
backtracking is exact). -/
def scanIntBefore (mark : Char → Bool) (l : List Char) : Option Nat :=
  match l with
  | [] => none
  | c :: rest =>
    if c.isDigit then
      let afterRun := rest.dropWhile Char.isDigit
      let afterSpace := afterRun.dropWhile isSpaceChar
      match afterSpace with
      | m :: _ =>
        if mark m then some (digitsToNat (c :: rest.takeWhile Char.isDigit))
        else scanIntBefore mark rest
      | [] => scanIntBefore mark rest
    else scanIntBefore mark rest

/-- `_parse_layout`: room/hall/bath counts from markers 房/廳/[衛厕廁]. -/
def parseLayout (text : Option String) : Option Nat × Option Nat × Option Nat :=
  let raw := (text.getD "").data
  (scanIntBefore (fun c => c = '房') raw,
   scanIntBefore (fun c => c = '廳') raw,
   scanIntBefore (fun c => c = '衛' || c = '厕' || c = '廁') raw)

/-- The fallback `re.search(r"(\d+)", raw)`: leftmost digit run. -/
def firstDigitRun (l : List Char) : Option Nat :=
  match l with
  | [] => none
  | c :: rest =>
    if c.isDigit then some (digitsToNat (c :: rest.takeWhile Char.isDigit))
    else firstDigitRun rest

/-- `_parse_floor`: `(\d+)\s*(?:f|樓)` case-insensitively, else any digit run. -/
def parseFloorField (text : Option String) : Option Nat :=
  let raw := (text.getD "").data
  match scanIntBefore (fun c => c = 'f' || c = 'F' || c = '樓') raw with
  | some n => some n
  | none => firstDigitRun raw

/-- `DedupFeatures` from `dedup.py`. -/
structure DedupFeatures where
  district : List Char
  address : List Char
  community : List Char
  price : Option ℚ
  size_ping : Option ℚ
  rooms : Option Nat
  halls : Option Nat
  baths : Option Nat
  floor : Option Nat
deriving DecidableEq

/-- `listing_to_features` from `dedup.py`. -/
def listingToFeatures (l : Listing) : DedupFeatures :=
  let lay := parseLayout l.room
  { district := normalizeTextOpt l.district
    address := normalizeAddressOpt l.address
    community := normalizeTextOpt l.community_name
    price := parseFloat l.price
    size_ping := parseFloat l.size_ping
    rooms := lay.1
    halls := lay.2.1
    baths := lay.2.2
    floor := parseFloorField l.floor }

/-- `DedupScore` from `dedup.py`. -/
structure DedupScore where
  score : ℚ
  address_similarity : ℚ
  price_similarity : ℚ
  size_similarity : ℚ
  layout_similarity : ℚ
  district_match : Bool
  reason : String
deriving DecidableEq

/-- `_relative_similarity` from `dedup.py`. -/
def relativeSimilarity (a b : Option ℚ) (tolerance : ℚ) : ℚ :=
  match a, b with
  | none, _ => 0.5
  | some _, none => 0.5
  | some x, some y =>
    if x = 0 ∧ y = 0 then 1
    else
      let baseline := max (max |x| |y|) 1
      let diff := |x - y| / baseline
      if diff ≤ tolerance then 1 - diff / max tolerance (1 / 1000000) * 0.2
      else if diff ≤ tolerance * 2 then
        0.6 * (1 - (diff - tolerance) / max tolerance (1 / 1000000))
      else 0

/-- `one_dim` inside `_layout_similarity`. -/
def layoutOneDim : Option Nat → Option Nat → ℚ
  | none, none => 0.5
  | none, some _ => 0.3
  | some _, none => 0.3
  | some x, some y =>
    if x = y then 1
    else if ((x : ℤ) - (y : ℤ)).natAbs = 1 then 0.4
    else 0

/-- `_layout_similarity` from `dedup.py`. -/
def layoutSimilarity (a b : DedupFeatures) : ℚ :=
  (layoutOneDim a.rooms b.rooms + layoutOneDim a.halls b.halls +
   layoutOneDim a.baths b.baths + layoutOneDim a.floor b.floor) / 4

/-- `_address_similarity` from `dedup.py`. -/
def addressSimilarity (a b : DedupFeatures) : ℚ :=
  if a.address = [] ∨ b.address = [] then 0
  else if a.address = b.address then 1
  else
    max (seqRatio a.address b.address)
      ((jaccard (bigramSet a.address) (bigramSet b.address) +
        jaccard (tokenSet a.address) (tokenSet b.address)) / 2)

/-- `district_match` in `score_duplicate`: `bool(a.district and a.district == b.district)`. -/
def districtMatchF (a b : DedupFeatures) : Prop :=
  a.district ≠ [] ∧ a.district = b.district

instance (a b : DedupFeatures) : Decidable (districtMatchF a b) := by
  unfold districtMatchF
  infer_instance

/-- `community_match` in `score_duplicate`. -/
def communityMatchF (a b : DedupFeatures) : Prop :=
  a.community ≠ [] ∧ a.community = b.community

instance (a b : DedupFeatures) : Decidable (communityMatchF a b) := by
  unfold communityMatchF
  infer_instance

/-- The weighted sum forming the raw overall score in `score_duplicate`. -/
def rawOverall (a b : DedupFeatures) (price_tolerance size_tolerance : ℚ) : ℚ :=
  0.55 * addressSimilarity a b +
  0.10 * (if districtMatchF a b then 1 else 0) +
  0.15 * relativeSimilarity a.price b.price price_tolerance +
  0.10 * relativeSimilarity a.size_ping b.size_ping size_tolerance +
  0.10 * layoutSimilarity a b

/-- The raw overall score after the guard cap
(`if not community_match and address_sim < 0.45: score = min(score, 0.69)`). -/
def cappedOverall (a b : DedupFeatures) (price_tolerance size_tolerance : ℚ) : ℚ :=
  if ¬ communityMatchF a b ∧ addressSimilarity a b < 0.45 then
    min (rawOverall a b price_tolerance size_tolerance) 0.69
  else rawOverall a b price_tolerance size_tolerance

/-- The reason-tag list built in `score_duplicate`. -/
def reasonTags (a b : DedupFeatures) (price_tolerance size_tolerance : ℚ) :
    List String :=
  (if districtMatchF a b then ["district"] else []) ++
  (if communityMatchF a b then ["community"] else []) ++
  (if addressSimilarity a b ≥ 0.7 then ["address"] else []) ++
  (if relativeSimilarity a.price b.price price_tolerance ≥ 0.8 then ["price"] else []) ++
  (if relativeSimilarity a.size_ping b.size_ping size_tolerance ≥ 0.8 then ["size"] else []) ++
  (if layoutSimilarity a b ≥ 0.7 then ["layout"] else [])

/-- `score_duplicate` from `dedup.py`. -/
def scoreDuplicate (left right : Listing) (price_tolerance size_tolerance : ℚ) :
    DedupScore :=
  let a := listingToFeatures left
  let b := listingToFeatures right
  let reasons := reasonTags a b price_tolerance size_tolerance
  { score := round4 (cappedOverall a b price_tolerance size_tolerance)
    address_similarity := round4 (addressSimilarity a b)
    price_similarity := round4 (relativeSimilarity a.price b.price price_tolerance)
    size_similarity := round4 (relativeSimilarity a.size_ping b.size_ping size_tolerance)
    layout_similarity := round4 (layoutSimilarity a b)
    district_match := decide (districtMatchF a b)
    reason := if reasons = [] then "low_signal" else String.intercalate "," reasons }

/-- `is_duplicate` on a `DedupScore` argument. -/
def isDuplicateScore (s : DedupScore) (threshold : ℚ) : Bool :=
  decide (threshold ≤ s.score)

/-- `is_duplicate` on a raw float argument. -/
def isDuplicateValue (x : ℚ) (threshold : ℚ) : Bool :=
  decide (threshold ≤ x)

/-- `_coarse_address_key`: strip digits (`re.sub(r"\d+", "")`), truncate. -/
def coarseAddressKey (address : List Char) : List Char :=
  if address = [] then []
  else (address.filter (fun c => !c.isDigit)).take 24

/-- The pre-hash payload of `build_entity_fingerprint`. -/
def fingerprintPayload (l : Listing) : String :=
  let f := listingToFeatures l
  let key0 := coarseAddressKey f.address
  let addressKey := if key0 = [] then (normalizeTextOpt l.title).take 24 else key0
  let parts := [f.district, addressKey].filter (fun p => p ≠ [])
  let payload := String.intercalate "|" (parts.map (fun p => String.mk p))
  if payload = "" then l.listing_id else payload

/-- `build_entity_fingerprint`: SHA-1 hexdigest of the payload; the hash
function (`hashlib.sha1`, an external library call) is a parameter. -/
def buildEntityFingerprint (sha1 : String → String) (l : Listing) : String :=
  sha1 (fingerprintPayload l)

def presentStr (v : Option String) : Bool :=
  match v with
  | none => false
  | some s => s != ""

def presentNum (v : Option ℚ) : Bool :=
  v.isSome

/-- `_completeness_score`: count of the 13 listed fields that are not
`None`/empty. -/
def completenessScore (l : Listing) : Nat :=
  (if presentStr l.title then 1 else 0) + (if presentStr l.address then 1 else 0) +
  (if presentStr l.district then 1 else 0) + (if presentNum l.price then 1 else 0) +
  (if presentNum l.size_ping then 1 else 0) + (if presentStr l.floor then 1 else 0) +
  (if presentStr l.room then 1 else 0) + (if presentStr l.houseage then 1 else 0) +
  (if presentStr l.community_name then 1 else 0) + (if presentNum l.main_area then 1 else 0) +
  (if presentStr l.direction then 1 else 0) + (if presentStr l.unit_price then 1 else 0) +
  (if presentStr l.kind_name then 1 else 0)

/-- Per-listing relation counts (`{favorites, notifications, reads}`). -/
structure RelCount where
  notifications : Nat
  reads : Nat
  favorites : Nat
deriving DecidableEq

/-- `_linked_state_score`: favorites*4 + notifications*3 + reads*2. -/
def linkedStateScore (linked : Option RelCount) : Nat :=
  match linked with
  | none => 0
  | some r => r.favorites * 4 + r.notifications * 3 + r.reads * 2

/-- `_timestamp_score`: try `published_at`, then `created_at`; `fromiso`
models `datetime.fromisoformat` (with the `Z` replacement and naive-UTC
defaulting) composed with `.timestamp()`, returning `none` when parsing
raises; all candidates failing yields `0.0`. -/
def timestampScore (fromiso : String → Option ℚ) (l : Listing) : ℚ :=
  let tryKey : Option String → Option ℚ := fun v =>
    match v with
    | none => none
    | some s => if s = "" then none else fromiso s
  match tryKey l.published_at with
  | some t => t
  | none =>
    match tryKey l.created_at with
    | some t => t
    | none => 0

/-- The sort key built by `key_func` in `choose_canonical_listing`. -/
def canonKey (fromiso : String → Option ℚ)
    (relation_counts : List (String × RelCount)) (item : Listing) :
    Nat × Nat × ℚ × String :=
  (linkedStateScore ((relation_counts.find? (fun p => p.1 = item.listing_id)).map Prod.snd),
   completenessScore item,
   timestampScore fromiso item,
   item.listing_id)

/-- Python tuple comparison `key(x) > key(best)`: strict lexicographic. -/
def keyGtB (x y : Nat × Nat × ℚ × String) : Bool :=
  if x.1 ≠ y.1 then decide (y.1 < x.1)
  else if x.2.1 ≠ y.2.1 then decide (y.2.1 < x.2.1)
  else if x.2.2.1 ≠ y.2.2.1 then decide (y.2.2.1 < x.2.2.1)
  else decide (y.2.2.2 < x.2.2.2)

/-- `choose_canonical_listing`: Python `max(listings, key=key_func)` keeps the
first element and replaces it whenever a later element's key compares strictly
greater; an empty input (which raises `ValueError`) is modelled as `none`. -/
def chooseCanonicalListing (fromiso : String → Option ℚ)
    (listings : List Listing) (relation_counts : List (String × RelCount)) :
    Option Listing :=
  match listings with
  | [] => none
  | h :: t =>
    some (t.foldl
      (fun best x =>
        if keyGtB (canonKey fromiso relation_counts x) (canonKey fromiso relation_counts best)
        then x else best) h)

theorem roundHalfEvenLe (y : ℚ) (c : ℤ) (h : y ≤ (c : ℚ)) : roundHalfEven y ≤ c := by
  have hf : ⌊y⌋ ≤ c := by
    have h2 := Int.floor_le_floor h
    rwa [Int.floor_intCast] at h2
  have hfl : (⌊y⌋ : ℚ) ≤ y := Int.floor_le y
  unfold roundHalfEven
  dsimp only
  split_ifs with h1 h2 h3
  · exact hf
  · rcases lt_or_eq_of_le hf with hlt | heq
    · omega
    · exfalso
      have hy : y ≤ ((⌊y⌋ : ℤ) : ℚ) := by
        rw [heq]
        exact h
      linarith
  · exact hf
  · rcases lt_or_eq_of_le hf with hlt | heq
    · omega
    · exfalso
      have hy : y ≤ ((⌊y⌋ : ℤ) : ℚ) := by
        rw [heq]
        exact h
      have hr := not_lt.mp h1
      linarith

theorem round4Le (x : ℚ) (c : ℤ) (h : x ≤ (c : ℚ) / 10000) :
    round4 x ≤ (c : ℚ) / 10000 := by
  have h1 : x * 10000 ≤ (c : ℚ) := by linarith
  have h2 := roundHalfEvenLe (x * 10000) c h1
  rw [round4]
  have h3 : ((roundHalfEven (x * 10000) : ℤ) : ℚ) ≤ (c : ℚ) := by exact_mod_cast h2
  linarith

/-- C1: whenever the two normalized community names are not both non-empty and
equal, and the computed address similarity is strictly below 0.45, the overall
score of `score_duplicate` is capped at 0.69, and `is_duplicate` at the
default threshold 0.82 is false. -/
theorem claim_C1_guard_cap (l r : Listing) (p s : ℚ)
    (hcomm : ¬ ((listingToFeatures l).community ≠ [] ∧
                (listingToFeatures r).community ≠ [] ∧
                (listingToFeatures l).community = (listingToFeatures r).community))
    (haddr : addressSimilarity (listingToFeatures l) (listingToFeatures r) < 0.45) :
    (scoreDuplicate l r p s).score ≤ 0.69 ∧
    isDuplicateScore (scoreDuplicate l r p s) DEFAULT_DEDUP_THRESHOLD = false := by
  have hcm : ¬ communityMatchF (listingToFeatures l) (listingToFeatures r) := by
    intro hcmm
    obtain ⟨h1, h2⟩ := hcmm
    refine hcomm ⟨h1, ?_, h2⟩
    rw [← h2]
    exact h1
  have hs : (scoreDuplicate l r p s).score =
      round4 (min (rawOverall (listingToFeatures l) (listingToFeatures r) p s) 0.69) := by
    show round4 (cappedOverall (listingToFeatures l) (listingToFeatures r) p s) = _
    rw [cappedOverall, if_pos (And.intro hcm haddr)]
  have h69 : ((6900 : ℤ) : ℚ) / 10000 = 0.69 := by norm_num
  have hle : (scoreDuplicate l r p s).score ≤ 0.69 := by
    rw [hs, ← h69]
    refine round4Le _ 6900 ?_
    rw [h69]
    exact min_le_right _ _
  refine ⟨hle, ?_⟩
  show decide ((0.82 : ℚ) ≤ (scoreDuplicate l r p s).score) = false
  exact decide_eq_false (not_le.mpr (lt_of_le_of_lt hle (by norm_num)))

/-- A listing with every optional field absent. -/
def blankListing : Listing :=
  { source := "591"
    listing_id := ""
    title := none
    price := none
    address := none
    district := none
    size_ping := none
    floor := none
    url := none
    published_at := none
    raw_hash := none
    houseage := none
    unit_price := none
    kind_name := none
    room := none
    community_name := none
    main_area := none
    direction := none
    entity_fingerprint := none
    created_at := none }

def wC1a : Listing := { blankListing with listing_id := "a", address := some "abc" }

def wC1b : Listing := { blankListing with listing_id := "b", address := some "xyz" }

theorem seqRatioEval (a b : List Char) (m : Nat)
    (hm : matchingTotal a b (seqB2j b) (2 * a.length + 2) [(0, a.length, 0, b.length)] 0 = m)
    (hne : ¬ a.length + b.length = 0) :
    seqRatio a b = 2 * (m : ℚ) / ((a.length + b.length : Nat) : ℚ) := by
  rw [seqRatio]
  dsimp only
  rw [if_neg hne, hm]

theorem jaccardEval (a b : Finset (List Char)) (i u : Nat)
    (ha : ¬ (a = ∅ ∨ b = ∅)) (hi : (a ∩ b).card = i) (hu : (a ∪ b).card = u) :
    jaccard a b = (i : ℚ) / (u : ℚ) := by
  rw [jaccard, if_neg ha, hi, hu]

theorem wC1addr :
    addressSimilarity (listingToFeatures wC1a) (listingToFeatures wC1b) = 0 := by
  have hf1 : (listingToFeatures wC1a).address = ['a', 'b', 'c'] := by decide
  have hf2 : (listingToFeatures wC1b).address = ['x', 'y', 'z'] := by decide
  have hm : matchingTotal ['a', 'b', 'c'] ['x', 'y', 'z']
      (seqB2j ['x', 'y', 'z']) (2 * 3 + 2) [(0, 3, 0, 3)] 0 = 0 := by decide
  have hsr := seqRatioEval ['a', 'b', 'c'] ['x', 'y', 'z'] 0 hm (by decide)
  have hj1 := jaccardEval (bigramSet ['a', 'b', 'c']) (bigramSet ['x', 'y', 'z']) 0 4
    (by decide) (by decide) (by decide)
  have hj2 := jaccardEval (tokenSet ['a', 'b', 'c']) (tokenSet ['x', 'y', 'z']) 0 2
    (by decide) (by decide) (by decide)
  rw [addressSimilarity, hf1, hf2, if_neg (by decide), if_neg (by decide),
    hsr, hj1, hj2]
  norm_num

/-- Witness for C1 at a concrete input: empty communities and fully unrelated
addresses. -/
theorem claim_C1_guard_cap_witness :
    (¬ ((listingToFeatures wC1a).community ≠ [] ∧
        (listingToFeatures wC1b).community ≠ [] ∧
        (listingToFeatures wC1a).community = (listingToFeatures wC1b).community)) ∧
    addressSimilarity (listingToFeatures wC1a) (listingToFeatures wC1b) < 0.45 ∧
    ((scoreDuplicate wC1a wC1b DEFAULT_PRICE_TOLERANCE DEFAULT_SIZE_TOLERANCE).score ≤ 0.69 ∧
     isDuplicateScore (scoreDuplicate wC1a wC1b DEFAULT_PRICE_TOLERANCE DEFAULT_SIZE_TOLERANCE)
       DEFAULT_DEDUP_THRESHOLD = false) := by
  have hcomm : ¬ ((listingToFeatures wC1a).community ≠ [] ∧
      (listingToFeatures wC1b).community ≠ [] ∧
      (listingToFeatures wC1a).community = (listingToFeatures wC1b).community) := by decide
  have haddr : addressSimilarity (listingToFeatures wC1a) (listingToFeatures wC1b) < 0.45 := by
    rw [wC1addr]
    norm_num
  exact ⟨hcomm, haddr, claim_C1_guard_cap wC1a wC1b _ _ hcomm haddr⟩

theorem relativeSimilaritySymm (a b : Option ℚ) (t : ℚ) :
    relativeSimilarity a b t = relativeSimilarity b a t := by
  match a, b with
  | none, none => rfl
  | none, some _ => rfl
  | some _, none => rfl
  | some x, some y =>
    simp only [relativeSimilarity]
    have h1 : (x = 0 ∧ y = 0) ↔ (y = 0 ∧ x = 0) := and_comm
    have h2 : |x - y| = |y - x| := abs_sub_comm x y
    have h3 : max (max |x| |y|) 1 = max (max |y| |x|) 1 := by rw [max_comm |x| |y|]
    rw [h2, h3]
    exact if_congr h1 rfl rfl

theorem natAbsSubComm (a b : ℤ) : (a - b).natAbs = (b - a).natAbs := by
  rw [← Int.natAbs_neg (a - b), neg_sub]

theorem layoutOneDimSymm (x y : Option Nat) : layoutOneDim x y = layoutOneDim y x := by
  match x, y with
  | none, none => rfl
  | none, some _ => rfl
  | some _, none => rfl
  | some m, some n =>
    simp only [layoutOneDim]
    have h1 : (m = n) ↔ (n = m) := eq_comm
    have h2 : (((m : ℤ) - n).natAbs = 1) ↔ (((n : ℤ) - m).natAbs = 1) := by
      rw [natAbsSubComm]
    exact if_congr h1 rfl (if_congr h2 rfl rfl)

theorem layoutSimilaritySymm (a b : DedupFeatures) :
    layoutSimilarity a b = layoutSimilarity b a := by
  unfold layoutSimilarity
  rw [layoutOneDimSymm a.rooms, layoutOneDimSymm a.halls, layoutOneDimSymm a.baths,
    layoutOneDimSymm a.floor]

theorem districtMatchSymm (a b : DedupFeatures) :
    districtMatchF a b ↔ districtMatchF b a := by
  unfold districtMatchF
  constructor
  · rintro ⟨h1, h2⟩
    refine ⟨?_, h2.symm⟩
    rw [← h2]
    exact h1
  · rintro ⟨h1, h2⟩
    refine ⟨?_, h2.symm⟩
    rw [← h2]
    exact h1

/-- C7 (amended): `score_duplicate` is symmetric in its price, size and layout
sub-scores and in the district flag; the overall score, the address
similarity and the reason tags are in general not symmetric, because
`difflib.SequenceMatcher.ratio` is order-dependent. -/
theorem claim_C7_partial_symmetry (l r : Listing) (p s : ℚ) :
    (scoreDuplicate l r p s).price_similarity = (scoreDuplicate r l p s).price_similarity ∧
    (scoreDuplicate l r p s).size_similarity = (scoreDuplicate r l p s).size_similarity ∧
    (scoreDuplicate l r p s).layout_similarity = (scoreDuplicate r l p s).layout_similarity ∧
    (scoreDuplicate l r p s).district_match = (scoreDuplicate r l p s).district_match := by
  refine ⟨?_, ?_, ?_, ?_⟩
  · exact congrArg round4
      (relativeSimilaritySymm (listingToFeatures l).price (listingToFeatures r).price p)
  · exact congrArg round4
      (relativeSimilaritySymm (listingToFeatures l).size_ping (listingToFeatures r).size_ping s)
  · exact congrArg round4
      (layoutSimilaritySymm (listingToFeatures l) (listingToFeatures r))
  · exact decide_eq_decide.mpr
      (districtMatchSymm (listingToFeatures l) (listingToFeatures r))

def wAsymA : Listing := { blankListing with listing_id := "a", address := some "ccbcc" }

def wAsymB : Listing := { blankListing with listing_id := "b", address := some "bcaacc" }

theorem wAsymAddrAB :
    addressSimilarity (listingToFeatures wAsymA) (listingToFeatures wAsymB) = 4 / 11 := by
  have hf1 : (listingToFeatures wAsymA).address = ['c', 'c', 'b', 'c', 'c'] := by decide
  have hf2 : (listingToFeatures wAsymB).address = ['b', 'c', 'a', 'a', 'c', 'c'] := by decide
  have hm : matchingTotal ['c', 'c', 'b', 'c', 'c'] ['b', 'c', 'a', 'a', 'c', 'c']
      (seqB2j ['b', 'c', 'a', 'a', 'c', 'c']) (2 * 5 + 2) [(0, 5, 0, 6)] 0 = 2 := by decide
  have hsr := seqRatioEval ['c', 'c', 'b', 'c', 'c'] ['b', 'c', 'a', 'a', 'c', 'c'] 2 hm
    (by decide)
  have hj1 := jaccardEval (bigramSet ['c', 'c', 'b', 'c', 'c'])
    (bigramSet ['b', 'c', 'a', 'a', 'c', 'c']) 2 6 (by decide) (by decide) (by decide)
  have hj2 := jaccardEval (tokenSet ['c', 'c', 'b', 'c', 'c'])
    (tokenSet ['b', 'c', 'a', 'a', 'c', 'c']) 0 2 (by decide) (by decide) (by decide)
  rw [addressSimilarity, hf1, hf2, if_neg (by decide), if_neg (by decide), hsr, hj1, hj2]
  rw [max_eq_left (by norm_num)]
  norm_num

theorem wAsymAddrBA :
    addressSimilarity (listingToFeatures wAsymB) (listingToFeatures wAsymA) = 6 / 11 := by
  have hf1 : (listingToFeatures wAsymA).address = ['c', 'c', 'b', 'c', 'c'] := by decide
  have hf2 : (listingToFeatures wAsymB).address = ['b', 'c', 'a', 'a', 'c', 'c'] := by decide
  have hm : matchingTotal ['b', 'c', 'a', 'a', 'c', 'c'] ['c', 'c', 'b', 'c', 'c']
      (seqB2j ['c', 'c', 'b', 'c', 'c']) (2 * 6 + 2) [(0, 6, 0, 5)] 0 = 3 := by decide
  have hsr := seqRatioEval ['b', 'c', 'a', 'a', 'c', 'c'] ['c', 'c', 'b', 'c', 'c'] 3 hm
    (by decide)
  have hj1 := jaccardEval (bigramSet ['b', 'c', 'a', 'a', 'c', 'c'])
    (bigramSet ['c', 'c', 'b', 'c', 'c']) 2 6 (by decide) (by decide) (by decide)
  have hj2 := jaccardEval (tokenSet ['b', 'c', 'a', 'a', 'c', 'c'])
    (tokenSet ['c', 'c', 'b', 'c', 'c']) 0 2 (by decide) (by decide) (by decide)
  rw [addressSimilarity, hf2, hf1, if_neg (by decide), if_neg (by decide), hsr, hj1, hj2]
  rw [max_eq_left (by norm_num)]
  norm_num

/-- C7 counterexample: at a concrete pair of listings the two orders of
`score_duplicate` disagree (already in the address-similarity field), so the
claimed full symmetry is false. -/
theorem claim_C7_counterexample :
    scoreDuplicate wAsymA wAsymB DEFAULT_PRICE_TOLERANCE DEFAULT_SIZE_TOLERANCE ≠
    scoreDuplicate wAsymB wAsymA DEFAULT_PRICE_TOLERANCE DEFAULT_SIZE_TOLERANCE := by
  intro h
  have hA : (scoreDuplicate wAsymA wAsymB DEFAULT_PRICE_TOLERANCE
      DEFAULT_SIZE_TOLERANCE).address_similarity = round4 (4 / 11) := by
    show round4 (addressSimilarity (listingToFeatures wAsymA) (listingToFeatures wAsymB)) = _
    rw [wAsymAddrAB]
  have hB : (scoreDuplicate wAsymB wAsymA DEFAULT_PRICE_TOLERANCE
      DEFAULT_SIZE_TOLERANCE).address_similarity = round4 (6 / 11) := by
    show round4 (addressSimilarity (listingToFeatures wAsymB) (listingToFeatures wAsymA)) = _
    rw [wAsymAddrBA]
  have hc : round4 (4 / 11) = round4 (6 / 11) := by
    rw [← hA, h, hB]
  rw [round4, round4, roundHalfEven, roundHalfEven] at hc
  norm_num at hc

/-- Strict lexicographic order on the canonical-choice key, the order Python
tuple comparison implements. -/
def KeyLt (a b : Nat × Nat × ℚ × String) : Prop :=
  a.1 < b.1 ∨ (a.1 = b.1 ∧ (a.2.1 < b.2.1 ∨ (a.2.1 = b.2.1 ∧
    (a.2.2.1 < b.2.2.1 ∨ (a.2.2.1 = b.2.2.1 ∧ a.2.2.2 < b.2.2.2)))))

theorem keyGtBIff (a b : Nat × Nat × ℚ × String) : keyGtB a b = true ↔ KeyLt b a := by
  unfold keyGtB KeyLt
  split_ifs with h1 h2 h3
  · simp only [decide_eq_true_eq]
    constructor
    · intro h
      exact Or.inl h
    · rintro (h | ⟨he, _⟩)
      · exact h
      · exact absurd he.symm h1
  · push_neg at h1
    simp only [decide_eq_true_eq]
    constructor
    · intro h
      exact Or.inr ⟨h1.symm, Or.inl h⟩
    · rintro (h | ⟨he, h | ⟨he2, _⟩⟩)
      · exact absurd h1 (ne_of_gt h)
      · exact h
      · exact absurd he2.symm h2
  · push_neg at h1 h2
    simp only [decide_eq_true_eq]
    constructor
    · intro h
      exact Or.inr ⟨h1.symm, Or.inr ⟨h2.symm, Or.inl h⟩⟩
    · rintro (h | ⟨he, h | ⟨he2, h | ⟨he3, _⟩⟩⟩)
      · exact absurd h1 (ne_of_gt h)
      · exact absurd h2 (ne_of_gt h)
      · exact h
      · exact absurd he3.symm h3
  · push_neg at h1 h2 h3
    simp only [decide_eq_true_eq]
    constructor
    · intro h
      exact Or.inr ⟨h1.symm, Or.inr ⟨h2.symm, Or.inr ⟨h3.symm, h⟩⟩⟩
    · rintro (h | ⟨he, h | ⟨he2, h | ⟨he3, h⟩⟩⟩)
      · exact absurd h1 (ne_of_gt h)
      · exact absurd h2 (ne_of_gt h)
      · exact absurd h3 (ne_of_gt h)
      · exact h

theorem keyLtAsymm (a b : Nat × Nat × ℚ × String) (h : KeyLt a b) : ¬ KeyLt b a := by
  intro g
  rcases h with h1 | ⟨e1, h⟩ <;> rcases g with g1 | ⟨f1, g⟩
  · omega
  · omega
  · omega
  · rcases h with h2 | ⟨e2, h⟩ <;> rcases g with g2 | ⟨f2, g⟩
    · omega
    · omega
    · omega
    · rcases h with h3 | ⟨e3, h⟩ <;> rcases g with g3 | ⟨f3, g⟩
      · linarith
      · linarith
      · linarith
      · exact lt_asymm h g

theorem keyLtTrans (a b c : Nat × Nat × ℚ × String)
    (h1 : KeyLt a b) (h2 : KeyLt b c) : KeyLt a c := by
  rcases h1 with g1 | ⟨e1, h1⟩ <;> rcases h2 with f1 | ⟨d1, h2⟩
  · exact Or.inl (lt_trans g1 f1)
  · exact Or.inl (by rw [← d1]; exact g1)
  · exact Or.inl (by rw [e1]; exact f1)
  · refine Or.inr ⟨e1.trans d1, ?_⟩
    rcases h1 with g2 | ⟨e2, h1⟩ <;> rcases h2 with f2 | ⟨d2, h2⟩
    · exact Or.inl (lt_trans g2 f2)
    · exact Or.inl (by rw [← d2]; exact g2)
    · exact Or.inl (by rw [e2]; exact f2)
    · refine Or.inr ⟨e2.trans d2, ?_⟩
      rcases h1 with g3 | ⟨e3, h1⟩ <;> rcases h2 with f3 | ⟨d3, h2⟩
      · exact Or.inl (lt_trans g3 f3)
      · exact Or.inl (by rw [← d3]; exact g3)
      · exact Or.inl (by rw [e3]; exact f3)
      · exact Or.inr ⟨e3.trans d3, lt_trans h1 h2⟩

theorem keyLtResolve (a b : Nat × Nat × ℚ × String) :
    KeyLt a b ∨ KeyLt b a ∨ a = b := by
  rcases lt_trichotomy a.1 b.1 with h1 | h1 | h1
  · exact Or.inl (Or.inl h1)
  · rcases lt_trichotomy a.2.1 b.2.1 with h2 | h2 | h2
    · exact Or.inl (Or.inr ⟨h1, Or.inl h2⟩)
    · rcases lt_trichotomy a.2.2.1 b.2.2.1 with h3 | h3 | h3
      · exact Or.inl (Or.inr ⟨h1, Or.inr ⟨h2, Or.inl h3⟩⟩)
      · rcases lt_trichotomy a.2.2.2 b.2.2.2 with h4 | h4 | h4
        · exact Or.inl (Or.inr ⟨h1, Or.inr ⟨h2, Or.inr ⟨h3, h4⟩⟩⟩)
        · refine Or.inr (Or.inr ?_)
          obtain ⟨x1, x2, x3, x4⟩ := a
          obtain ⟨y1, y2, y3, y4⟩ := b
          simp_all
        · exact Or.inr (Or.inl (Or.inr ⟨h1.symm, Or.inr ⟨h2.symm, Or.inr ⟨h3.symm, h4⟩⟩⟩))
      · exact Or.inr (Or.inl (Or.inr ⟨h1.symm, Or.inr ⟨h2.symm, Or.inl h3⟩⟩))
    · exact Or.inr (Or.inl (Or.inr ⟨h1.symm, Or.inl h2⟩))
  · exact Or.inr (Or.inl (Or.inl h1))

theorem keyGtBIrrefl (k : Nat × Nat × ℚ × String) : keyGtB k k = false := by
  rw [← Bool.not_eq_true, keyGtBIff]
  intro h
  exact keyLtAsymm k k h h

theorem keyGtBAsymm (a b : Nat × Nat × ℚ × String) (h : keyGtB a b = true) :
    keyGtB b a = false := by
  rw [keyGtBIff] at h
  rw [← Bool.not_eq_true, keyGtBIff]
  exact keyLtAsymm b a h

theorem keyGtBNegTrans (a b c : Nat × Nat × ℚ × String)
    (h1 : keyGtB a b = false) (h2 : keyGtB b c = false) : keyGtB a c = false := by
  rw [← Bool.not_eq_true, keyGtBIff] at h1 h2 ⊢
  intro hca
  rcases keyLtResolve b a with hba | hab | heq
  · exact h1 hba
  · exact h2 (keyLtTrans c a b hca hab)
  · refine h2 ?_
    rw [heq]
    exact hca

theorem foldMaxSpec (key : Listing → Nat × Nat × ℚ × String) :
    ∀ (t : List Listing) (best : Listing),
      ((t.foldl (fun b x => if keyGtB (key x) (key b) then x else b) best) = best ∨
       (t.foldl (fun b x => if keyGtB (key x) (key b) then x else b) best) ∈ t) ∧
      keyGtB (key best)
        (key (t.foldl (fun b x => if keyGtB (key x) (key b) then x else b) best)) = false ∧
      ∀ l ∈ t, keyGtB (key l)
        (key (t.foldl (fun b x => if keyGtB (key x) (key b) then x else b) best)) = false := by
  intro t
  induction t with
  | nil =>
    intro best
    refine ⟨Or.inl rfl, keyGtBIrrefl _, ?_⟩
    intro l hl
    simp at hl
  | cons x t ih =>
    intro best
    simp only [List.foldl_cons]
    by_cases hx : keyGtB (key x) (key best) = true
    · rw [if_pos hx]
      obtain ⟨hmem, hbest, hall⟩ := ih x
      refine ⟨?_, ?_, ?_⟩
      · rcases hmem with h | h
        · exact Or.inr (by simp [h])
        · exact Or.inr (List.mem_cons_of_mem _ h)
      · exact keyGtBNegTrans _ _ _ (keyGtBAsymm _ _ hx) hbest
      · intro l hl
        rcases List.mem_cons.mp hl with h | h
        · subst h
          exact hbest
        · exact hall l h
    · have hxf : keyGtB (key x) (key best) = false := by
        revert hx
        cases keyGtB (key x) (key best) <;> simp
      rw [if_neg (by simp [hxf])]
      obtain ⟨hmem, hbest, hall⟩ := ih best
      refine ⟨?_, hbest, ?_⟩
      · rcases hmem with h | h
        · exact Or.inl h
        · exact Or.inr (List.mem_cons_of_mem _ h)
      · intro l hl
        rcases List.mem_cons.mp hl with h | h
        · subst h
          exact keyGtBNegTrans _ _ _ hxf hbest
        · exact hall l h

/-- C3 (amended): for every non-empty input, `choose_canonical_listing` returns
a member whose key (linked-state score, completeness, timestamp score with
unparsable/missing mapping to 0.0, listing id) is maximal in the lexicographic
order; in particular on full three-way ties it keeps the listing with the
lexicographically LARGEST id (Python `max`), not the smallest. -/
theorem claim_C3_canonical_choice (fromiso : String → Option ℚ)
    (listings : List Listing) (rc : List (String × RelCount))
    (hne : listings ≠ []) :
    ∃ c, chooseCanonicalListing fromiso listings rc = some c ∧ c ∈ listings ∧
      ∀ l ∈ listings,
        keyGtB (canonKey fromiso rc l) (canonKey fromiso rc c) = false := by
  match listings with
  | [] => exact absurd rfl hne
  | h :: t =>
    simp only [chooseCanonicalListing]
    obtain ⟨hmem, hbest, hall⟩ := foldMaxSpec (canonKey fromiso rc) t h
    refine ⟨_, rfl, ?_, ?_⟩
    · rcases hmem with heq | hm
      · rw [heq]
        simp
      · exact List.mem_cons_of_mem _ hm
    · intro l hl
      rcases List.mem_cons.mp hl with heq | hm
      · subst heq
        exact hbest
      · exact hall l hm

/-- Witness for the amended C3 at a concrete non-empty input. -/
theorem claim_C3_canonical_choice_witness :
    (([wC1a, wC1b] : List Listing) ≠ []) ∧
    (∃ c, chooseCanonicalListing (fun _ => none) [wC1a, wC1b] [] = some c ∧
      c ∈ [wC1a, wC1b] ∧
      ∀ l ∈ [wC1a, wC1b],
        keyGtB (canonKey (fun _ => none) [] l) (canonKey (fun _ => none) [] c) = false) :=
  ⟨by simp, claim_C3_canonical_choice (fun _ => none) [wC1a, wC1b] [] (by simp)⟩

def wIdA : Listing := { blankListing with listing_id := "a" }

def wIdB : Listing := { blankListing with listing_id := "b" }

/-- C3 counterexample: two listings identical except for their ids; the code
returns the one with the lexicographically largest id "b", not the smallest
id "a" the claim requires. -/
theorem claim_C3_counterexample :
    (chooseCanonicalListing (fun _ => none) [wIdA, wIdB] []).map Listing.listing_id =
      some "b" ∧ ¬ ("b" : String) = "a" := by
  constructor
  · have hgt : keyGtB (canonKey (fun _ => none) [] wIdB)
        (canonKey (fun _ => none) [] wIdA) = true := by
      rw [keyGtBIff]
      refine Or.inr ⟨rfl, Or.inr ⟨rfl, Or.inr ⟨rfl, ?_⟩⟩⟩
      show ("a" : String) < "b"
      rw [String.lt_iff_toList_lt]
      decide
    simp only [chooseCanonicalListing, List.foldl_cons, List.foldl_nil, if_pos hgt]
    rfl
  · decide

/-- A `notifications_sent` row (UNIQUE(source, listing_id, channel)). -/
structure NotifRow where
  listing_id : String
  source : String
  channel : String
  notified_at : String
deriving DecidableEq

/-- A `listings_read` row (PRIMARY KEY (source, listing_id)). -/
structure ReadRow where
  source : String
  listing_id : String
  raw_hash : Option String
  read_at : String
deriving DecidableEq

/-- A `favorites` row (PRIMARY KEY (source, listing_id)). -/
structure FavRow where
  source : String
  listing_id : String
  added_at : String
deriving DecidableEq

/-- A `dedup_audit` row (append-only). -/
structure AuditRow where
  event_type : String
  source : String
  listing_id : Option String
  canonical_listing_id : Option String
  candidate_ids : List String
  score : Option ℚ
  reason : Option String
  entity_fingerprint : Option String
  created_at : String
deriving DecidableEq

/-- The SQLite database of `storage.py`, as lists of typed rows in rowid
(insertion) order. -/
structure StorageState where
  listings : List Listing
  notifications : List NotifRow
  reads : List ReadRow
  favorites : List FavRow
  audit : List AuditRow
deriving DecidableEq

def emptyStorage : StorageState :=
  { listings := []
    notifications := []
    reads := []
    favorites := []
    audit := [] }

/-- `INSERT OR IGNORE` against UNIQUE(source, listing_id, channel). -/
def insertNotifIfAbsent (rows : List NotifRow) (r : NotifRow) : List NotifRow :=
  if rows.any (fun x => x.source == r.source && x.listing_id == r.listing_id &&
      x.channel == r.channel)
  then rows else rows ++ [r]

/-- `INSERT OR IGNORE` against PRIMARY KEY (source, listing_id). -/
def insertReadIfAbsent (rows : List ReadRow) (r : ReadRow) : List ReadRow :=
  if rows.any (fun x => x.source == r.source && x.listing_id == r.listing_id)
  then rows else rows ++ [r]

/-- `INSERT OR IGNORE` against PRIMARY KEY (source, listing_id). -/
def insertFavIfAbsent (rows : List FavRow) (r : FavRow) : List FavRow :=
  if rows.any (fun x => x.source == r.source && x.listing_id == r.listing_id)
  then rows else rows ++ [r]

/-- One iteration of the per-duplicate loop inside `merge_duplicate_group`:
copy the duplicate's relation rows onto the canonical listing (insert-if-absent
under each table's unique key, substituting the canonical content hash for
read-state), delete the duplicate's relation and listing rows, and append one
merge audit row. -/
def mergeOne (st : StorageState) (source canonical_listing_id : String)
    (canonical_hash : Option String) (dup : String) (score : Option ℚ)
    (reason : String) (entity_fingerprint : Option String) (now : String) :
    StorageState :=
  let dupNotifs := st.notifications.filter
    (fun r => r.source == source && r.listing_id == dup)
  let notifs := dupNotifs.foldl
    (fun rows dr => insertNotifIfAbsent rows { dr with listing_id := canonical_listing_id })
    st.notifications
  let dupReads := st.reads.filter (fun r => r.source == source && r.listing_id == dup)
  let reads := dupReads.foldl
    (fun rows dr => insertReadIfAbsent rows
      { source := dr.source
        listing_id := canonical_listing_id
        raw_hash := canonical_hash
        read_at := dr.read_at })
    st.reads
  let dupFavs := st.favorites.filter (fun r => r.source == source && r.listing_id == dup)
  let favs := dupFavs.foldl
    (fun rows dr => insertFavIfAbsent rows { dr with listing_id := canonical_listing_id })
    st.favorites
  let auditRow : AuditRow :=
    { event_type := "merge"
      source := source
      listing_id := some dup
      canonical_listing_id := some canonical_listing_id
      candidate_ids := [dup]
      score := score
      reason := some reason
      entity_fingerprint := entity_fingerprint
      created_at := now }
  { listings := st.listings.filter (fun l => !(l.source == source && l.listing_id == dup))
    notifications := notifs.filter (fun r => !(r.source == source && r.listing_id == dup))
    reads := reads.filter (fun r => !(r.source == source && r.listing_id == dup))
    favorites := favs.filter (fun r => !(r.source == source && r.listing_id == dup))
    audit := st.audit ++ [auditRow] }

/-- `merge_duplicate_group` from `storage.py`: the returned merged count and
the post-transaction state. `now` models the wall clock used for the audit
rows' `created_at` column. -/
def mergeDuplicateGroup (st : StorageState) (source canonical_listing_id : String)
    (duplicate_listing_ids : List String) (score : Option ℚ) (reason : String)
    (entity_fingerprint : Option String) (now : String) : Nat × StorageState :=
  if duplicate_listing_ids = [] then (0, st)
  else
    let dups := duplicate_listing_ids.filter
      (fun lid => lid != "" && lid != canonical_listing_id)
    if dups = [] then (0, st)
    else
      let canonical_hash :=
        (st.listings.find? (fun l => l.source == source &&
          l.listing_id == canonical_listing_id)).bind Listing.raw_hash
      let st2 := dups.foldl
        (fun acc dup => mergeOne acc source canonical_listing_id canonical_hash dup
          score reason entity_fingerprint now) st
      (dups.length, st2)

/-- C4 counterexample: the duplicate list ["c", "d"] contains the canonical id
"c", yet the call is not a no-op: it merges "d", returning 1 and appending a
merge audit row even on an empty store. -/
theorem claim_C4_counterexample :
    (mergeDuplicateGroup emptyStorage "591" "c" ["c", "d"] none "r" none "t").1 = 1 ∧
    (mergeDuplicateGroup emptyStorage "591" "c" ["c", "d"] none "r" none "t").2 ≠
      emptyStorage := by
  constructor
  · decide
  · intro h
    have h2 := congrArg StorageState.audit h
    have h3 := congrArg List.length h2
    revert h3
    decide

/-- C4 (amended): `merge_duplicate_group` returns 0 and leaves the store
untouched exactly when the duplicate-id list, after dropping empty ids and ids
equal to the canonical id, is empty — in particular for `[]` and `[c]`. A list
that merely contains the canonical id alongside other ids still merges those
other ids. -/
theorem claim_C4_merge_noop (st : StorageState) (source c : String)
    (dups : List String) (score : Option ℚ) (reason : String)
    (fp : Option String) (now : String)
    (hf : dups.filter (fun lid => lid != "" && lid != c) = []) :
    mergeDuplicateGroup st source c dups score reason fp now = (0, st) := by
  unfold mergeDuplicateGroup
  by_cases hd : dups = []
  · rw [if_pos hd]
  · rw [if_neg hd]
    dsimp only
    rw [if_pos hf]

/-- Witness for the amended C4: `merge(c, [c])` on an empty store. -/
theorem claim_C4_merge_noop_witness :
    ((["c"] : List String).filter (fun lid => lid != "" && lid != "c") = []) ∧
    mergeDuplicateGroup emptyStorage "591" "c" ["c"] none "cleanup_merge" none "t" =
      (0, emptyStorage) :=
  ⟨by decide,
   claim_C4_merge_noop emptyStorage "591" "c" ["c"] none "cleanup_merge" none "t"
     (by decide)⟩

/-- C10: the merged count returned by `merge_duplicate_group` equals the length
of the filtered duplicate-id list (empty ids and the canonical id removed,
repeats counted each time), regardless of whether the listings exist. -/
theorem claim_C10_merge_count (st : StorageState) (source c : String)
    (dups : List String) (score : Option ℚ) (reason : String)
    (fp : Option String) (now : String)
    (hf : dups.filter (fun lid => lid != "" && lid != c) ≠ []) :
    (mergeDuplicateGroup st source c dups score reason fp now).1 =
      (dups.filter (fun lid => lid != "" && lid != c)).length := by
  unfold mergeDuplicateGroup
  have hd : dups ≠ [] := by
    intro h
    subst h
    simp at hf
  rw [if_neg hd]
  dsimp only
  rw [if_neg hf]

/-- Witness for C10: repeated and non-existing ids still count (3 on an empty
store). -/
theorem claim_C10_merge_count_witness :
    ((["d", "d", "e"] : List String).filter (fun lid => lid != "" && lid != "c") ≠ []) ∧
    (mergeDuplicateGroup emptyStorage "591" "c" ["d", "d", "e"] none "r" none "t").1 = 3 := by
  refine ⟨by decide, ?_⟩
  rw [claim_C10_merge_count emptyStorage "591" "c" ["d", "d", "e"] none "r" none "t"
    (by decide)]
  decide

/-- Whether the pairwise loop of `_connected_components` links bucket indices
`i` and `j`: each unordered pair is scored once in index order (`i < j`), and
the edge is recorded in both adjacency sets. -/
def scoreEdge (listings : List Listing) (threshold p s : ℚ) (i j : Nat) : Bool :=
  decide (threshold ≤
    (scoreDuplicate (listings.getD (min i j) blankListing)
      (listings.getD (max i j) blankListing) p s).score)

/-- The adjacency sets built by `_connected_components`, as ascending index
lists (CPython sets of small ints iterate in ascending order). -/
def buildAdj (listings : List Listing) (threshold p s : ℚ) : List (List Nat) :=
  (List.range listings.length).map (fun i =>
    (List.range listings.length).filter
      (fun j => j != i && scoreEdge listings threshold p s i j))

/-- The stack-based DFS of `_connected_components`: `stack.pop()` takes the
head, and `stack.extend(adj[idx])` pushes the neighbor list so that its last
element ends on top. The fuel bounds the number of loop iterations. -/
def dfsWalk (adj : List (List Nat)) :
    Nat → List Nat → List Bool → List Nat → List Bool × List Nat
  | 0, _, seen, comp => (seen, comp)
  | _ + 1, [], seen, comp => (seen, comp)
  | fuel + 1, idx :: stack, seen, comp =>
    if seen.getD idx false then dfsWalk adj fuel stack seen comp
    else
      dfsWalk adj fuel ((adj.getD idx []).reverse ++ stack) (seen.set idx true)
        (comp ++ [idx])

/-- The outer loop of `_connected_components` over start indices. -/
def ccIndices (adj : List (List Nat)) (n : Nat) : List (List Nat) :=
  ((List.range n).foldl
    (fun (acc : List Bool × List (List Nat)) i =>
      if acc.1.getD i false then acc
      else
        let walk := dfsWalk adj (n * n + n + 2) [i] acc.1 []
        (walk.1, acc.2 ++ [walk.2]))
    (List.replicate n false, [])).2

/-- `_connected_components` from `dedup_cleanup.py`. -/
def connectedComponents (listings : List Listing) (threshold p s : ℚ) :
    List (List Listing) :=
  if listings.length ≤ 1 then [listings]
  else
    (ccIndices (buildAdj listings threshold p s) listings.length).map
      (fun g => g.map (fun i => listings.getD i blankListing))

/-- C2: for any three bucket listings A, B, C and any threshold, if A-B and
B-C score at or above the threshold but A-C does not, the cleanup clustering
still produces the single component {A, B, C} — transitive chains merge, never
two separate pairs. -/
theorem claim_C2_transitive_closure (A B C : Listing) (t p s : ℚ)
    (hAB : t ≤ (scoreDuplicate A B p s).score)
    (hBC : t ≤ (scoreDuplicate B C p s).score)
    (hAC : ¬ t ≤ (scoreDuplicate A C p s).score) :
    connectedComponents [A, B, C] t p s = [[A, B, C]] := by
  have e01 : scoreEdge [A, B, C] t p s 0 1 = true := by
    unfold scoreEdge
    exact decide_eq_true hAB
  have e02 : scoreEdge [A, B, C] t p s 0 2 = false := by
    unfold scoreEdge
    exact decide_eq_false hAC
  have e10 : scoreEdge [A, B, C] t p s 1 0 = true := by
    unfold scoreEdge
    exact decide_eq_true hAB
  have e12 : scoreEdge [A, B, C] t p s 1 2 = true := by
    unfold scoreEdge
    exact decide_eq_true hBC
  have e20 : scoreEdge [A, B, C] t p s 2 0 = false := by
    unfold scoreEdge
    exact decide_eq_false hAC
  have e21 : scoreEdge [A, B, C] t p s 2 1 = true := by
    unfold scoreEdge
    exact decide_eq_true hBC
  have hr : List.range 3 = [0, 1, 2] := by decide
  have hadj : buildAdj [A, B, C] t p s = [[1], [0, 2], [1]] := by
    unfold buildAdj
    simp only [List.length_cons, List.length_nil, Nat.zero_add]
    rw [hr]
    simp only [List.map_cons, List.map_nil, List.filter_cons, List.filter_nil,
      e01, e02, e10, e12, e20, e21]
    norm_num
  unfold connectedComponents
  rw [if_neg (by simp)]
  rw [hadj]
  have hcc : ccIndices [[1], [0, 2], [1]] 3 = [[0, 1, 2]] := by decide
  simp only [List.length_cons, List.length_nil, Nat.zero_add]
  rw [hcc]
  rfl

theorem scoreDuplicateScore (l r : Listing) (p s : ℚ) :
    (scoreDuplicate l r p s).score =
      round4 (cappedOverall (listingToFeatures l) (listingToFeatures r) p s) := rfl

theorem cappedOverallAddrOnly (fa fb : DedupFeatures) (p s α : ℚ)
    (hda : fa.district = []) (hca : fa.community = [])
    (hpa : fa.price = none) (hsa : fa.size_ping = none)
    (hroa : fa.rooms = none) (hhaa : fa.halls = none) (hba : fa.baths = none)
    (hfla : fa.floor = none)
    (hrob : fb.rooms = none) (hhab : fb.halls = none) (hbb : fb.baths = none)
    (hflb : fb.floor = none)
    (haddr : addressSimilarity fa fb = α) (hge : ¬ α < 0.45) :
    cappedOverall fa fb p s = 0.55 * α + 0.175 := by
  have hdm : ¬ districtMatchF fa fb := fun hd => hd.1 hda
  have hcm : ¬ communityMatchF fa fb := fun hc => hc.1 hca
  have hpr : relativeSimilarity fa.price fb.price p = 0.5 := by
    rw [hpa]
    rfl
  have hsz : relativeSimilarity fa.size_ping fb.size_ping s = 0.5 := by
    rw [hsa]
    rfl
  have hly : layoutSimilarity fa fb = 0.5 := by
    rw [layoutSimilarity, hroa, hrob, hhaa, hhab, hba, hbb, hfla, hflb]
    norm_num [layoutOneDim]
  rw [cappedOverall, if_neg (fun hcond => hge (haddr ▸ hcond.2))]
  rw [rawOverall, haddr, hpr, hsz, hly, if_neg hdm]
  ring

theorem cappedOverallAddrOnlyLow (fa fb : DedupFeatures) (p s α : ℚ)
    (hda : fa.district = []) (hca : fa.community = [])
    (hpa : fa.price = none) (hsa : fa.size_ping = none)
    (hroa : fa.rooms = none) (hhaa : fa.halls = none) (hba : fa.baths = none)
    (hfla : fa.floor = none)
    (hrob : fb.rooms = none) (hhab : fb.halls = none) (hbb : fb.baths = none)
    (hflb : fb.floor = none)
    (haddr : addressSimilarity fa fb = α) (hlt : α < 0.45) :
    cappedOverall fa fb p s = min (0.55 * α + 0.175) 0.69 := by
  have hdm : ¬ districtMatchF fa fb := fun hd => hd.1 hda
  have hcm : ¬ communityMatchF fa fb := fun hc => hc.1 hca
  have hpr : relativeSimilarity fa.price fb.price p = 0.5 := by
    rw [hpa]
    rfl
  have hsz : relativeSimilarity fa.size_ping fb.size_ping s = 0.5 := by
    rw [hsa]
    rfl
  have hly : layoutSimilarity fa fb = 0.5 := by
    rw [layoutSimilarity, hroa, hrob, hhaa, hhab, hba, hbb, hfla, hflb]
    norm_num [layoutOneDim]
  rw [cappedOverall, if_pos (And.intro hcm (haddr ▸ hlt))]
  rw [rawOverall, haddr, hpr, hsz, hly, if_neg hdm]
  ring_nf

def wC2a : Listing := { blankListing with listing_id := "1", address := some "aabb" }

def wC2b : Listing := { blankListing with listing_id := "2", address := some "bbcc" }

def wC2c : Listing := { blankListing with listing_id := "3", address := some "ccdd" }

theorem wC2addrAB :
    addressSimilarity (listingToFeatures wC2a) (listingToFeatures wC2b) = 1 / 2 := by
  have hf1 : (listingToFeatures wC2a).address = ['a', 'a', 'b', 'b'] := by decide
  have hf2 : (listingToFeatures wC2b).address = ['b', 'b', 'c', 'c'] := by decide
  have hm : matchingTotal ['a', 'a', 'b', 'b'] ['b', 'b', 'c', 'c']
      (seqB2j ['b', 'b', 'c', 'c']) (2 * 4 + 2) [(0, 4, 0, 4)] 0 = 2 := by decide
  have hsr := seqRatioEval ['a', 'a', 'b', 'b'] ['b', 'b', 'c', 'c'] 2 hm (by decide)
  have hj1 := jaccardEval (bigramSet ['a', 'a', 'b', 'b']) (bigramSet ['b', 'b', 'c', 'c'])
    1 5 (by decide) (by decide) (by decide)
  have hj2 := jaccardEval (tokenSet ['a', 'a', 'b', 'b']) (tokenSet ['b', 'b', 'c', 'c'])
    0 2 (by decide) (by decide) (by decide)
  rw [addressSimilarity, hf1, hf2, if_neg (by decide), if_neg (by decide), hsr, hj1, hj2]
  rw [max_eq_left (by norm_num)]
  norm_num

theorem wC2addrBC :
    addressSimilarity (listingToFeatures wC2b) (listingToFeatures wC2c) = 1 / 2 := by
  have hf1 : (listingToFeatures wC2b).address = ['b', 'b', 'c', 'c'] := by decide
  have hf2 : (listingToFeatures wC2c).address = ['c', 'c', 'd', 'd'] := by decide
  have hm : matchingTotal ['b', 'b', 'c', 'c'] ['c', 'c', 'd', 'd']
      (seqB2j ['c', 'c', 'd', 'd']) (2 * 4 + 2) [(0, 4, 0, 4)] 0 = 2 := by decide
  have hsr := seqRatioEval ['b', 'b', 'c', 'c'] ['c', 'c', 'd', 'd'] 2 hm (by decide)
  have hj1 := jaccardEval (bigramSet ['b', 'b', 'c', 'c']) (bigramSet ['c', 'c', 'd', 'd'])
    1 5 (by decide) (by decide) (by decide)
  have hj2 := jaccardEval (tokenSet ['b', 'b', 'c', 'c']) (tokenSet ['c', 'c', 'd', 'd'])
    0 2 (by decide) (by decide) (by decide)
  rw [addressSimilarity, hf1, hf2, if_neg (by decide), if_neg (by decide), hsr, hj1, hj2]
  rw [max_eq_left (by norm_num)]
  norm_num

theorem wC2addrAC :
    addressSimilarity (listingToFeatures wC2a) (listingToFeatures wC2c) = 0 := by
  have hf1 : (listingToFeatures wC2a).address = ['a', 'a', 'b', 'b'] := by decide
  have hf2 : (listingToFeatures wC2c).address = ['c', 'c', 'd', 'd'] := by decide
  have hm : matchingTotal ['a', 'a', 'b', 'b'] ['c', 'c', 'd', 'd']
      (seqB2j ['c', 'c', 'd', 'd']) (2 * 4 + 2) [(0, 4, 0, 4)] 0 = 0 := by decide
  have hsr := seqRatioEval ['a', 'a', 'b', 'b'] ['c', 'c', 'd', 'd'] 0 hm (by decide)
  have hj1 := jaccardEval (bigramSet ['a', 'a', 'b', 'b']) (bigramSet ['c', 'c', 'd', 'd'])
    0 6 (by decide) (by decide) (by decide)
  have hj2 := jaccardEval (tokenSet ['a', 'a', 'b', 'b']) (tokenSet ['c', 'c', 'd', 'd'])
    0 2 (by decide) (by decide) (by decide)
  rw [addressSimilarity, hf1, hf2, if_neg (by decide), if_neg (by decide), hsr, hj1, hj2]
  norm_num

theorem wC2scoreAB :
    (scoreDuplicate wC2a wC2b DEFAULT_PRICE_TOLERANCE DEFAULT_SIZE_TOLERANCE).score =
      45 / 100 := by
  rw [scoreDuplicateScore]
  rw [cappedOverallAddrOnly (listingToFeatures wC2a) (listingToFeatures wC2b) _ _ (1 / 2)
    (by decide) (by decide) (by decide) (by decide) (by decide) (by decide) (by decide)
    (by decide) (by decide) (by decide) (by decide) (by decide) wC2addrAB (by norm_num)]
  rw [round4, roundHalfEven]
  norm_num

theorem wC2scoreBC :
    (scoreDuplicate wC2b wC2c DEFAULT_PRICE_TOLERANCE DEFAULT_SIZE_TOLERANCE).score =
      45 / 100 := by
  rw [scoreDuplicateScore]
  rw [cappedOverallAddrOnly (listingToFeatures wC2b) (listingToFeatures wC2c) _ _ (1 / 2)
    (by decide) (by decide) (by decide) (by decide) (by decide) (by decide) (by decide)
    (by decide) (by decide) (by decide) (by decide) (by decide) wC2addrBC (by norm_num)]
  rw [round4, roundHalfEven]
  norm_num

theorem wC2scoreAC :
    (scoreDuplicate wC2a wC2c DEFAULT_PRICE_TOLERANCE DEFAULT_SIZE_TOLERANCE).score =
      175 / 1000 := by
  rw [scoreDuplicateScore]
  rw [cappedOverallAddrOnlyLow (listingToFeatures wC2a) (listingToFeatures wC2c) _ _ 0
    (by decide) (by decide) (by decide) (by decide) (by decide) (by decide) (by decide)
    (by decide) (by decide) (by decide) (by decide) (by decide) wC2addrAC (by norm_num)]
  rw [min_eq_left (by norm_num)]
  rw [round4, roundHalfEven]
  norm_num

/-- Witness for C2 at a concrete triangle: A-B and B-C score 0.45 at threshold
0.45, A-C scores 0.175, and the clustering returns the single component
{A, B, C}. -/
theorem claim_C2_transitive_closure_witness :
    ((45 : ℚ) / 100 ≤
      (scoreDuplicate wC2a wC2b DEFAULT_PRICE_TOLERANCE DEFAULT_SIZE_TOLERANCE).score) ∧
    ((45 : ℚ) / 100 ≤
      (scoreDuplicate wC2b wC2c DEFAULT_PRICE_TOLERANCE DEFAULT_SIZE_TOLERANCE).score) ∧
    (¬ (45 : ℚ) / 100 ≤
      (scoreDuplicate wC2a wC2c DEFAULT_PRICE_TOLERANCE DEFAULT_SIZE_TOLERANCE).score) ∧
    connectedComponents [wC2a, wC2b, wC2c] (45 / 100) DEFAULT_PRICE_TOLERANCE
      DEFAULT_SIZE_TOLERANCE = [[wC2a, wC2b, wC2c]] := by
  have h1 : (45 : ℚ) / 100 ≤
      (scoreDuplicate wC2a wC2b DEFAULT_PRICE_TOLERANCE DEFAULT_SIZE_TOLERANCE).score := by
    rw [wC2scoreAB]
  have h2 : (45 : ℚ) / 100 ≤
      (scoreDuplicate wC2b wC2c DEFAULT_PRICE_TOLERANCE DEFAULT_SIZE_TOLERANCE).score := by
    rw [wC2scoreBC]
  have h3 : ¬ (45 : ℚ) / 100 ≤
      (scoreDuplicate wC2a wC2c DEFAULT_PRICE_TOLERANCE DEFAULT_SIZE_TOLERANCE).score := by
    rw [wC2scoreAC]
    norm_num
  exact ⟨h1, h2, h3, claim_C2_transitive_closure wC2a wC2b wC2c _ _ _ h1 h2 h3⟩

/-- Stable descending insertion for `ORDER BY created_at DESC`: a row is
placed before the first strictly older row, keeping insertion order among
equal timestamps. -/
def sortedInsertDesc (x : Listing) : List Listing → List Listing
  | [] => [x]
  | y :: rest =>
    if (y.created_at.getD "") < (x.created_at.getD "") then x :: y :: rest
    else y :: sortedInsertDesc x rest

/-- `get_all_listings`: the source's rows ordered by created_at DESC, id DESC
(reversing the rowid order first realizes the id-descending tie-break under
the stable sort). -/
def getAllListings (st : StorageState) (source : String) : List Listing :=
  (st.listings.filter (fun l => l.source == source)).reverse.foldl
    (fun acc x => sortedInsertDesc x acc) []

/-- `get_relation_counts`: per-id counts over the three relation tables. -/
def getRelationCounts (st : StorageState) (source : String) (ids : List String) :
    List (String × RelCount) :=
  ids.map (fun lid =>
    (lid,
     { notifications := (st.notifications.filter
         (fun r => r.source == source && r.listing_id == lid)).length
       reads := (st.reads.filter
         (fun r => r.source == source && r.listing_id == lid)).length
       favorites := (st.favorites.filter
         (fun r => r.source == source && r.listing_id == lid)).length }))

/-- Python dict `setdefault(fp, []).append(l)`: buckets keep key insertion
order. -/
def bucketInsert (buckets : List (String × List Listing)) (fp : String)
    (l : Listing) : List (String × List Listing) :=
  if buckets.any (fun q => q.1 == fp) then
    buckets.map (fun q => if q.1 == fp then (q.1, q.2 ++ [l]) else q)
  else buckets ++ [(fp, [l])]

/-- `CleanupPlan` from `dedup_cleanup.py`. -/
structure CleanupPlan where
  entity_fingerprint : String
  canonical_listing_id : String
  duplicate_listing_ids : List String
  score : ℚ
  reason : String
deriving DecidableEq

/-- The per-component body of the planning loop in `plan_cleanup`. -/
def planForComponent (fromiso : String → Option ℚ) (st : StorageState)
    (source : String) (p s : ℚ) (fp : String) (component : List Listing) :
    List CleanupPlan :=
  if component.length ≤ 1 then []
  else
    let ids := component.map Listing.listing_id
    let rc := getRelationCounts st source ids
    match chooseCanonicalListing fromiso component rc with
    | none => []
    | some canonical =>
      let cid := canonical.listing_id
      let duplicates :=
        (component.filter (fun x => x.listing_id != cid)).map Listing.listing_id
      if duplicates = [] then []
      else
        let top := component.foldl
          (fun (acc : ℚ × String) item =>
            if item.listing_id == cid then acc
            else
              let scored := scoreDuplicate canonical item p s
              if acc.1 ≤ scored.score then (scored.score, scored.reason) else acc)
          (0, "cleanup")
        [{ entity_fingerprint := fp
           canonical_listing_id := cid
           duplicate_listing_ids := duplicates
           score := round4 top.1
           reason := top.2 }]

/-- `plan_cleanup` from `dedup_cleanup.py`. -/
def planCleanup (sha1 : String → String) (fromiso : String → Option ℚ)
    (st : StorageState) (source : String) (threshold p s : ℚ) :
    List CleanupPlan :=
  let bucketed := (getAllListings st source).foldl
    (fun acc l =>
      let fp := buildEntityFingerprint sha1 l
      if fp == "" then acc else bucketInsert acc fp l) []
  bucketed.foldl
    (fun plans bucket =>
      if bucket.2.length < 2 then plans
      else plans ++ ((connectedComponents bucket.2 threshold p s).foldl
        (fun ps comp => ps ++ planForComponent fromiso st source p s bucket.1 comp) []))
    []

/-- `validate_relation_integrity`: orphan counts per relation table. -/
def validateRelationIntegrity (st : StorageState) : List (String × Nat) :=
  [("notifications_sent",
    (st.notifications.filter (fun n => !(st.listings.any
      (fun l => l.source == n.source && l.listing_id == n.listing_id)))).length),
   ("listings_read",
    (st.reads.filter (fun r => !(st.listings.any
      (fun l => l.source == r.source && l.listing_id == r.listing_id)))).length),
   ("favorites",
    (st.favorites.filter (fun f => !(st.listings.any
      (fun l => l.source == f.source && l.listing_id == f.listing_id)))).length)]

/-- The report dict returned by `run_cleanup`. -/
structure CleanupReport where
  dry_run : Bool
  source : String
  threshold : ℚ
  price_tolerance : ℚ
  size_tolerance : ℚ
  batch_size : Nat
  groups : Nat
  projected_merge_records : Nat
  merged_groups : Nat
  merged_records : Nat
  cleanup_failed : Nat
  plans : List CleanupPlan
  validation : List (String × Nat)
deriving DecidableEq

/-- `run_cleanup` from `dedup_cleanup.py`. The embedded
`merge_duplicate_group` is total, so the `except` counter `cleanup_failed`
(database-level failures) stays 0 in the model. -/
def runCleanup (sha1 : String → String) (fromiso : String → Option ℚ)
    (st : StorageState) (source : String) (dry_run : Bool)
    (threshold p s : ℚ) (batch_size : Nat) (now : String) :
    CleanupReport × StorageState :=
  let plans := (planCleanup sha1 fromiso st source threshold p s).take (max batch_size 1)
  let report : CleanupReport :=
    { dry_run := dry_run
      source := source
      threshold := threshold
      price_tolerance := p
      size_tolerance := s
      batch_size := batch_size
      groups := plans.length
      projected_merge_records := (plans.map (fun q => q.duplicate_listing_ids.length)).sum
      merged_groups := 0
      merged_records := 0
      cleanup_failed := 0
      plans := plans
      validation := [] }
  if dry_run then (report, st)
  else
    let applied := plans.foldl
      (fun (acc : CleanupReport × StorageState) q =>
        let merged := mergeDuplicateGroup acc.2 source q.canonical_listing_id
          q.duplicate_listing_ids (some q.score) ("cleanup:" ++ q.reason)
          (some q.entity_fingerprint) now
        ({ acc.1 with
            merged_groups := acc.1.merged_groups + (if 0 < merged.1 then 1 else 0)
            merged_records := acc.1.merged_records + merged.1 },
         merged.2))
      (report, st)
    ({ applied.1 with validation := validateRelationIntegrity applied.2 }, applied.2)

/-- C5: with `dry_run = True`, `run_cleanup` mutates nothing: the store comes
back unchanged, the report carries the projected counts and plans, and
`merged_groups`, `merged_records` and `cleanup_failed` are all zero. -/
theorem claim_C5_dry_run_pure (sha1 : String → String) (fromiso : String → Option ℚ)
    (st : StorageState) (source : String) (threshold p s : ℚ)
    (batch_size : Nat) (now : String) :
    (runCleanup sha1 fromiso st source true threshold p s batch_size now).2 = st ∧
    (runCleanup sha1 fromiso st source true threshold p s batch_size now).1.merged_groups = 0 ∧
    (runCleanup sha1 fromiso st source true threshold p s batch_size now).1.merged_records = 0 ∧
    (runCleanup sha1 fromiso st source true threshold p s batch_size now).1.cleanup_failed = 0 ∧
    (runCleanup sha1 fromiso st source true threshold p s batch_size now).1.plans =
      (planCleanup sha1 fromiso st source threshold p s).take (max batch_size 1) ∧
    (runCleanup sha1 fromiso st source true threshold p s batch_size now).1.groups =
      ((planCleanup sha1 fromiso st source threshold p s).take (max batch_size 1)).length ∧
    (runCleanup sha1 fromiso st source true threshold p s batch_size now).1.projected_merge_records =
      (((planCleanup sha1 fromiso st source threshold p s).take (max batch_size 1)).map
        (fun q => q.duplicate_listing_ids.length)).sum :=
  ⟨rfl, rfl, rfl, rfl, rfl, rfl, rfl⟩

/-- `_normalize_listing` from `storage.py`: default the source, stringify the
id, and fill a missing entity fingerprint. -/
def normalizeListing (sha1 : String → String) (listing : Listing) : Listing :=
  let l := { listing with
    source := if listing.source == "" then "591" else listing.source }
  if l.entity_fingerprint.getD "" == "" then
    { l with entity_fingerprint := some (buildEntityFingerprint sha1 l) }
  else l

/-- The dedup decision dict returned by `insert_listing_with_dedup`. -/
structure DedupDecision where
  inserted : Bool
  reason : String
  score : Option ℚ
  canonical_listing_id : Option String
  entity_fingerprint : Option String
deriving DecidableEq

/-- The best candidate tracked by the fuzzy-scoring step. -/
structure BestCand where
  listing_id : String
  reason : String
  score : ℚ
deriving DecidableEq

/-- `record_dedup_decision`: append one audit row (and commit). -/
def recordDedupDecision (st : StorageState) (event_type source : String)
    (listing_id canonical_listing_id : Option String) (candidate_ids : List String)
    (score : Option ℚ) (reason : Option String) (entity_fingerprint : Option String)
    (now : String) : StorageState :=
  let row : AuditRow :=
    { event_type := event_type
      source := source
      listing_id := listing_id
      canonical_listing_id := canonical_listing_id
      candidate_ids := candidate_ids
      score := score
      reason := reason
      entity_fingerprint := entity_fingerprint
      created_at := now }
  { st with audit := st.audit ++ [row] }

/-- `get_dedup_candidates` (no exclusion, default limit 200), newest-first. -/
def getDedupCandidates (st : StorageState) (source : String) (fp : String) :
    List Listing :=
  if fp == "" then []
  else
    ((st.listings.filter (fun l => l.source == source &&
      l.entity_fingerprint == some fp)).reverse.foldl
        (fun acc x => sortedInsertDesc x acc) []).take 200

/-- One candidate scan of `insert_listing_with_dedup` (strict improvement,
mirroring `scored.score > best_score`); `tagged` decorates the stored reason
("batch:" for cache candidates). -/
def scanBest (l : Listing) (p s : ℚ) (tagged : String → String)
    (cands : List Listing) (start : ℚ × Option BestCand) : ℚ × Option BestCand :=
  cands.foldl
    (fun acc cand =>
      let scored := scoreDuplicate l cand p s
      if acc.1 < scored.score then
        (scored.score,
         some { listing_id := cand.listing_id
                reason := tagged scored.reason
                score := scored.score })
      else acc)
    start

/-- The fuzzy-scoring step of the gate: scan stored candidates, then the
same-batch cache when it is a non-empty dict; yields 0 and no candidate when
dedup is disabled or the fingerprint is missing. -/
def entityBest (st : StorageState) (l : Listing)
    (batch_cache : Option (List (String × List Listing)))
    (dedup_enabled : Bool) (p s : ℚ) : ℚ × Option BestCand :=
  if dedup_enabled && l.entity_fingerprint.getD "" != "" then
    let b1 := scanBest l p s (fun r => r)
      (getDedupCandidates st l.source (l.entity_fingerprint.getD "")) (0, none)
    match batch_cache with
    | some bc =>
      if bc.isEmpty then b1
      else
        scanBest l p s (fun r => "batch:" ++ r)
          (((bc.find? (fun q => q.1 == l.entity_fingerprint.getD "")).map Prod.snd).getD [])
          b1
    | none => b1
  else (0, none)

/-- The stored row written by `_insert_listing_row`: columns outside its
INSERT column list (main_area, direction) stay NULL, and `created_at` takes
the database default clock. -/
def storedRow (l : Listing) (now : String) : Listing :=
  { l with main_area := none, direction := none, created_at := some now }

/-- The final INSERT of `insert_listing_with_dedup` with its
`sqlite3.IntegrityError` handler. `interleave` stands for rows committed by
concurrent writers between the gate's SELECT checks and the INSERT
(`interleave = id` is the race-free sequential semantics); the
unique-constraint violation fires exactly when the insert-time state already
holds a row with the same (source, listing_id). -/
def insertAttempt (interleave : StorageState → StorageState) (st : StorageState)
    (l : Listing) (batch_cache : Option (List (String × List Listing)))
    (now : String) :
    DedupDecision × StorageState × Option (List (String × List Listing)) :=
  let st2 := interleave st
  if st2.listings.any (fun r => r.source == l.source && r.listing_id == l.listing_id) then
    ({ inserted := false
       reason := "duplicate_integrity"
       score := none
       canonical_listing_id := none
       entity_fingerprint := l.entity_fingerprint },
     st2, batch_cache)
  else
    let st3 := { st2 with listings := st2.listings ++ [storedRow l now] }
    let cache2 :=
      match batch_cache with
      | none => none
      | some bc =>
        if l.entity_fingerprint.getD "" == "" then some bc
        else some (bucketInsert bc (l.entity_fingerprint.getD "") l)
    ({ inserted := true
       reason := "inserted"
       score := none
       canonical_listing_id := none
       entity_fingerprint := l.entity_fingerprint },
     st3, cache2)

/-- `insert_listing_with_dedup` from `storage.py`. -/
def insertListingWithDedup (sha1 : String → String)
    (interleave : StorageState → StorageState) (st : StorageState)
    (listing : Listing) (batch_cache : Option (List (String × List Listing)))
    (dedup_enabled : Bool) (dedup_threshold p s : ℚ) (now : String) :
    DedupDecision × StorageState × Option (List (String × List Listing)) :=
  let l := normalizeListing sha1 listing
  match st.listings.find? (fun r => r.source == l.source && r.listing_id == l.listing_id) with
  | some e =>
    ({ inserted := false
       reason := "duplicate_listing_id"
       score := none
       canonical_listing_id := some e.listing_id
       entity_fingerprint := l.entity_fingerprint },
     recordDedupDecision st "skip" l.source (some l.listing_id) (some e.listing_id)
       [e.listing_id] (some 1) (some "duplicate_listing_id") l.entity_fingerprint now,
     batch_cache)
  | none =>
    match (if l.raw_hash.getD "" == "" then none
           else st.listings.find? (fun r => r.raw_hash == l.raw_hash)) with
    | some e =>
      ({ inserted := false
         reason := "duplicate_raw_hash"
         score := none
         canonical_listing_id := some e.listing_id
         entity_fingerprint := l.entity_fingerprint },
       recordDedupDecision st "skip" l.source (some l.listing_id) (some e.listing_id)
         [e.listing_id] (some 1) (some "duplicate_raw_hash") l.entity_fingerprint now,
       batch_cache)
    | none =>
      let best := entityBest st l batch_cache dedup_enabled p s
      match best.2 with
      | some cand =>
        if dedup_threshold ≤ best.1 then
          ({ inserted := false
             reason := "duplicate_entity"
             score := some (round4 best.1)
             canonical_listing_id := some cand.listing_id
             entity_fingerprint := l.entity_fingerprint },
           recordDedupDecision st "skip" l.source (some l.listing_id)
             (some cand.listing_id) [cand.listing_id] (some best.1)
             (some cand.reason) l.entity_fingerprint now,
           batch_cache)
        else insertAttempt interleave st l batch_cache now
      | none => insertAttempt interleave st l batch_cache now

/-- C6: whenever the exact-key and hash checks pass and the fuzzy gate does
not skip, but the insert-time state holds a conflicting (source, listing_id)
row (a concurrent writer slipped in), `insert_listing_with_dedup` does not
raise: it returns inserted=false with reason "duplicate_integrity", leaves
the store as the insert-time state (no row, no audit entry) and the batch
cache untouched. -/
theorem claim_C6_integrity_race (sha1 : String → String)
    (interleave : StorageState → StorageState) (st : StorageState)
    (listing : Listing) (bc : Option (List (String × List Listing)))
    (dedup_enabled : Bool) (t p s : ℚ) (now : String)
    (h1 : st.listings.find? (fun r =>
        r.source == (normalizeListing sha1 listing).source &&
        r.listing_id == (normalizeListing sha1 listing).listing_id) = none)
    (h2 : (if (normalizeListing sha1 listing).raw_hash.getD "" == "" then none
           else st.listings.find? (fun r =>
             r.raw_hash == (normalizeListing sha1 listing).raw_hash)) = none)
    (h3 : ¬ ((entityBest st (normalizeListing sha1 listing) bc dedup_enabled p s).2 ≠ none ∧
             t ≤ (entityBest st (normalizeListing sha1 listing) bc dedup_enabled p s).1))
    (h4 : (interleave st).listings.any (fun r =>
        r.source == (normalizeListing sha1 listing).source &&
        r.listing_id == (normalizeListing sha1 listing).listing_id) = true) :
    insertListingWithDedup sha1 interleave st listing bc dedup_enabled t p s now =
      ({ inserted := false
         reason := "duplicate_integrity"
         score := none
         canonical_listing_id := none
         entity_fingerprint := (normalizeListing sha1 listing).entity_fingerprint },
       interleave st, bc) := by
  unfold insertListingWithDedup
  dsimp only
  rw [h1, h2]
  rcases hb : (entityBest st (normalizeListing sha1 listing) bc dedup_enabled p s).2 with
    _ | cand
  · simp only [hb]
    unfold insertAttempt
    rw [if_pos h4]
  · simp only [hb]
    have hlt : ¬ t ≤ (entityBest st (normalizeListing sha1 listing) bc dedup_enabled p s).1 := by
      intro hle
      exact h3 ⟨by rw [hb]; simp, hle⟩
    rw [if_neg hlt]
    unfold insertAttempt
    rw [if_pos h4]

def wRaceListing : Listing := { blankListing with listing_id := "x" }

/-- Models a concurrent writer committing the same (source, listing_id) row
between the gate's checks and the INSERT. -/
def wRaceInterleave : StorageState → StorageState :=
  fun st2 => { st2 with listings := st2.listings ++ [wRaceListing] }

/-- Witness for C6: an empty store passes every check, a concurrent writer
commits the same key in the race window, and the gate reports
`duplicate_integrity` instead of raising. -/
theorem claim_C6_integrity_race_witness :
    (emptyStorage.listings.find? (fun r =>
        r.source == (normalizeListing (fun x => x) wRaceListing).source &&
        r.listing_id == (normalizeListing (fun x => x) wRaceListing).listing_id) = none) ∧
    ((if (normalizeListing (fun x => x) wRaceListing).raw_hash.getD "" == "" then none
      else emptyStorage.listings.find? (fun r =>
        r.raw_hash == (normalizeListing (fun x => x) wRaceListing).raw_hash)) = none) ∧
    ((wRaceInterleave emptyStorage).listings.any (fun r =>
        r.source == (normalizeListing (fun x => x) wRaceListing).source &&
        r.listing_id == (normalizeListing (fun x => x) wRaceListing).listing_id) = true) ∧
    insertListingWithDedup (fun x => x) wRaceInterleave emptyStorage wRaceListing none
      false DEFAULT_DEDUP_THRESHOLD DEFAULT_PRICE_TOLERANCE DEFAULT_SIZE_TOLERANCE "t" =
      ({ inserted := false
         reason := "duplicate_integrity"
         score := none
         canonical_listing_id := none
         entity_fingerprint := (normalizeListing (fun x => x) wRaceListing).entity_fingerprint },
       wRaceInterleave emptyStorage, none) := by
  have h1 : emptyStorage.listings.find? (fun r =>
      r.source == (normalizeListing (fun x => x) wRaceListing).source &&
      r.listing_id == (normalizeListing (fun x => x) wRaceListing).listing_id) = none := rfl
  have h2 : (if (normalizeListing (fun x => x) wRaceListing).raw_hash.getD "" == "" then none
      else emptyStorage.listings.find? (fun r =>
        r.raw_hash == (normalizeListing (fun x => x) wRaceListing).raw_hash)) = none := by
    decide
  have h3 : ¬ ((entityBest emptyStorage (normalizeListing (fun x => x) wRaceListing) none
        false DEFAULT_PRICE_TOLERANCE DEFAULT_SIZE_TOLERANCE).2 ≠ none ∧
      DEFAULT_DEDUP_THRESHOLD ≤
        (entityBest emptyStorage (normalizeListing (fun x => x) wRaceListing) none
          false DEFAULT_PRICE_TOLERANCE DEFAULT_SIZE_TOLERANCE).1) := by
    intro h
    exact h.1 rfl
  have h4 : (wRaceInterleave emptyStorage).listings.any (fun r =>
      r.source == (normalizeListing (fun x => x) wRaceListing).source &&
      r.listing_id == (normalizeListing (fun x => x) wRaceListing).listing_id) = true := by
    decide
  exact ⟨h1, h2, h4,
    claim_C6_integrity_race (fun x => x) wRaceInterleave emptyStorage wRaceListing none
      false DEFAULT_DEDUP_THRESHOLD DEFAULT_PRICE_TOLERANCE DEFAULT_SIZE_TOLERANCE "t"
      h1 h2 h3 h4⟩

theorem intercalateSingleNe (l : List Char) (h : l ≠ []) :
    ¬ String.intercalate "|" [String.mk l] = "" := by
  have hgo : String.intercalate "|" [String.mk l] = String.mk l := rfl
  rw [hgo]
  intro hcon
  exact h (congrArg String.data hcon)

theorem intercalatePairNe (a b : List Char) (h' : a ≠ []) :
    ¬ String.intercalate "|" [String.mk a, String.mk b] = "" := by
  have hgo : String.intercalate "|" [String.mk a, String.mk b] =
      String.mk a ++ "|" ++ String.mk b := rfl
  rw [hgo]
  intro hcon
  have hdata := congrArg String.data hcon
  simp at hdata

theorem fingerprintPayloadEq (l : Listing)
    (hne : (listingToFeatures l).address.filter (fun c => !c.isDigit) ≠ []) :
    fingerprintPayload l =
      String.intercalate "|"
        (([(listingToFeatures l).district,
           ((listingToFeatures l).address.filter (fun c => !c.isDigit)).take 24].filter
          (fun q => q ≠ [])).map (fun q => String.mk q)) := by
  have haddrne : (listingToFeatures l).address ≠ [] := by
    intro h
    apply hne
    rw [h]
    rfl
  have hkey : ((listingToFeatures l).address.filter (fun c => !c.isDigit)).take 24 ≠ [] := by
    rcases hfil : (listingToFeatures l).address.filter (fun c => !c.isDigit) with _ | ⟨c, t⟩
    · exact absurd hfil hne
    · rw [hfil]
      simp
  unfold fingerprintPayload coarseAddressKey
  dsimp only
  rw [if_neg haddrne, if_neg hkey]
  rw [if_neg ?hpay]
  case hpay =>
    by_cases hdd : (listingToFeatures l).district = []
    · rcases hk2 : ((listingToFeatures l).address.filter (fun c => !c.isDigit)).take 24 with
        _ | ⟨c, t⟩
      · exact absurd hk2 hkey
      · simp only [hdd, hk2]
        have hfl : ([([] : List Char), c :: t].filter (fun q => q ≠ [])) = [c :: t] := by
          simp
        rw [hfl, List.map_cons, List.map_nil]
        exact intercalateSingleNe (c :: t) (by simp)
    · rcases hd2 : (listingToFeatures l).district with _ | ⟨d, ds⟩
      · exact absurd hd2 hdd
      · rcases hk2 : ((listingToFeatures l).address.filter (fun c => !c.isDigit)).take 24 with
          _ | ⟨c, t⟩
        · exact absurd hk2 hkey
        · simp only [hd2, hk2]
          have hfl : ([d :: ds, c :: t].filter (fun q => q ≠ [])) = [d :: ds, c :: t] := by
            simp
          rw [hfl, List.map_cons, List.map_cons, List.map_nil]
          exact intercalatePairNe (d :: ds) (c :: t) (by simp)

/-- C9 (amended): two listings with the same normalized district whose
NORMALIZED addresses agree after removing digit characters, with that
digit-stripped key non-empty (so the title/id fallbacks do not engage),
produce identical fingerprints for every hash function. -/
theorem claim_C9_fingerprint_stability (sha1 : String → String) (la lb : Listing)
    (hd : (listingToFeatures la).district = (listingToFeatures lb).district)
    (ha : (listingToFeatures la).address.filter (fun c => !c.isDigit) =
          (listingToFeatures lb).address.filter (fun c => !c.isDigit))
    (hne : (listingToFeatures la).address.filter (fun c => !c.isDigit) ≠ []) :
    buildEntityFingerprint sha1 la = buildEntityFingerprint sha1 lb := by
  unfold buildEntityFingerprint
  apply congrArg
  rw [fingerprintPayloadEq la hne, fingerprintPayloadEq lb (by rw [← ha]; exact hne)]
  rw [hd, ha]

def wC9a : Listing :=
  { blankListing with listing_id := "z", district := some "南港區",
                      address := some "中山路10號" }

def wC9b : Listing :=
  { blankListing with listing_id := "z", district := some "南港區",
                      address := some "中山路12號" }

/-- Witness for the amended C9: house numbers 10 vs 12 are pure digit noise
and the fingerprints coincide. -/
theorem claim_C9_fingerprint_stability_witness :
    ((listingToFeatures wC9a).district = (listingToFeatures wC9b).district) ∧
    ((listingToFeatures wC9a).address.filter (fun c => !c.isDigit) =
     (listingToFeatures wC9b).address.filter (fun c => !c.isDigit)) ∧
    ((listingToFeatures wC9a).address.filter (fun c => !c.isDigit) ≠ []) ∧
    buildEntityFingerprint (fun x => x) wC9a = buildEntityFingerprint (fun x => x) wC9b := by
  refine ⟨by decide, by decide, by decide, ?_⟩
  exact claim_C9_fingerprint_stability (fun x => x) wC9a wC9b (by decide) (by decide)
    (by decide)

def wC9c : Listing :=
  { blankListing with listing_id := "z", district := some "南港區",
                      address := some "中山路3樓" }

def wC9d : Listing :=
  { blankListing with listing_id := "z", district := some "南港區",
                      address := some "中山路樓" }

/-- C9 counterexample: the raw addresses 中山路3樓 and 中山路樓 differ only in
the digit 3 and the listings share a district (and everything else), yet the
fingerprints differ, because the floor-suffix strip deletes the digit run AND
its trailing 樓: the coarse keys become 中山路 versus 中山路樓. -/
theorem claim_C9_counterexample :
    wC9c.district = wC9d.district ∧
    (wC9c.address.getD "").data.filter (fun c => !c.isDigit) =
      (wC9d.address.getD "").data.filter (fun c => !c.isDigit) ∧
    ¬ (∀ shaf : String → String,
        buildEntityFingerprint shaf wC9c = buildEntityFingerprint shaf wC9d) := by
  refine ⟨rfl, by decide, ?_⟩
  intro h
  have h2 := h (fun x => x)
  revert h2
  decide
